import Mathlib

/-!
# ORAS image transfer (`internal/pkg/client/oras/oras.go`)

A shallow embedding of the download, upload and digest operations of the
`oras` package.  Calls into collaborator libraries (reference parser,
registry client, OCI layout, image detector, SHA-256) are results supplied
by an environment record `Env`; the operating-system calls act on an
explicit filesystem state, and every call made is recorded in a trace.
-/

namespace Oras

/-! ## Data model -/

/-- A Go `error` value: `new` is an error carrying only a message
(`errors.New`, `fmt.Errorf` without `%w`); `wrap` is the result of
`fmt.Errorf` with a `%w` verb, carrying the formatted message and the
wrapped error. -/
inductive GoError where
  | new (msg : String)
  | wrap (msg : String) (inner : GoError)
deriving DecidableEq, Repr

/-- The method `Error()`: the message of the error. -/
def GoError.Error : GoError → String
  | .new msg => msg
  | .wrap msg _ => msg

/-- The method `Unwrap()`: the wrapped error, if any. -/
def GoError.Unwrap : GoError → Option GoError
  | .new _ => none
  | .wrap _ inner => some inner

/-- A byte. -/
abbrev Byte := Fin 256

/-- The type `ggcrv1.Hash`. -/
structure Hash where
  Algorithm : String
  Hex : String
deriving DecidableEq, Repr

/-- The zero value `ggcrv1.Hash{}`. -/
def Hash.zero : Hash := ⟨"", ""⟩

/-- The fields of `ggcrv1.Descriptor` read by this package. -/
structure Descriptor where
  MediaType : String
  Size : Int
  Digest : Hash
deriving DecidableEq, Repr

/-- The zero value of `Descriptor`. -/
def Descriptor.zero : Descriptor := ⟨"", 0, Hash.zero⟩

/-- The field of `ggcrv1.Manifest` read by this package. -/
structure Manifest where
  Layers : List Descriptor
deriving DecidableEq, Repr

/-- A remote image handle (`ggcrv1.Image`): an identifier and the result of
its method `Manifest()`. -/
structure Image where
  id : Nat
  Manifest : Except GoError Manifest

/-- The type `ocitypes.DockerAuthConfig`. -/
structure DockerAuthConfig where
  Username : String
  Password : String
  IdentityToken : String
deriving DecidableEq, Repr

/-- An `io.Reader`: the bytes it delivers, then end of file (`none`) or a
read error. -/
structure Reader where
  data : List Byte
  err : Option GoError
deriving DecidableEq, Repr

/-- A parsed reference (`name.Reference`). -/
structure Reference where
  Registry : String
  Repository : String
  Identifier : String
deriving DecidableEq, Repr

/-- The image types of `pkg/image` (result of the image detector). -/
inductive ImageType where
  | SQUASHFS | EXT3 | SANDBOX | SIF | ENCRYPTSQUASHFS | RAW | OCISIF | GOCRYPTFSSQUASHFS
deriving DecidableEq, Repr

/-- A progress update `ggcrv1.Update`. -/
structure Update where
  Total : Int
  Complete : Int
  Error : Option GoError
deriving DecidableEq, Repr

/-- Calls made on the progress bar by the upload progress consumer. -/
inductive BarEvent where
  | Init (total : Int)
  | IncrBy (n : Int)
  | Wait
  | Abort (drop : Bool)
deriving DecidableEq, Repr

/-- The calls that leave the package, in the order they are made. -/
inductive Event where
  | ParseReference (s defaultTag defaultRegistry : String)
  | RemoteImage (ir : Reference) (withProgress : Bool)
  | ImageManifest (im : Nat)
  | MkdirTemp
  | LayoutWrite (dir : String)
  | AppendImage (dir : String) (im : Nat)
  | LayoutBlob (dir : String) (digest : Hash)
  | BlobClose
  | Create (path : String)
  | Copy (path : String)
  | FileClose (path : String)
  | ImageInit (path : String)
  | ImageClose (path : String)
  | RemoveAll (path : String)
  | SylogErrorf (msg : String)
  | NewImageFromSIF (path mediaType : String)
  | IsTerminal (fd : Nat)
  | GoProgress
  | RemoteWrite (ir : Reference) (im : Nat) (userAgent : String) (withProgress : Bool)
  | Open (path : String)
deriving DecidableEq, Repr

/-- The events that create, write or remove something in the filesystem. -/
def Event.isFilesystemChange : Event → Bool
  | .MkdirTemp | .LayoutWrite _ | .AppendImage _ _ | .Create _ | .Copy _ | .RemoveAll _ => true
  | _ => false

/-- The events that read the filesystem. -/
def Event.isFilesystemRead : Event → Bool
  | .LayoutBlob _ _ | .ImageInit _ | .Open _ => true
  | _ => false

/-- Every event that touches the filesystem. -/
def Event.isFilesystem (e : Event) : Bool :=
  e.isFilesystemChange || e.isFilesystemRead

/-- The events that send a request to the registry. -/
def Event.isRegistry : Event → Bool
  | .RemoteImage _ _ | .RemoteWrite _ _ _ _ => true
  | _ => false

/-- A node of the filesystem. -/
inductive Node where
  | file (content : List Byte)
  | dir
deriving DecidableEq, Repr

/-- The filesystem: what is at each path.  Entries below a directory are
not tracked. -/
abbrev FS := String → Option Node

/-- The filesystem with `p` bound to `n`. -/
def FS.set (fs : FS) (p : String) (n : Option Node) : FS :=
  fun q => if q = p then n else fs q

/-- The state passed through every operation. -/
structure World where
  fs : FS
  trace : List Event

/-- Record one event. -/
def World.emit (w : World) (e : Event) : World :=
  { w with trace := w.trace ++ [e] }

/-- Put `n` at path `p`. -/
def World.write (w : World) (p : String) (n : Option Node) : World :=
  { w with fs := w.fs.set p n }

/-- What the collaborators answer.  Constants of the package declared
outside this file are fields too. -/
structure Env where
  /-- Constant `SifLayerMediaTypeV1` of the package. -/
  SifLayerMediaTypeV1 : String
  /-- Constant `SifLayerMediaTypeProto` of the package. -/
  SifLayerMediaTypeProto : String
  /-- The `%q` verb of `fmt` on a string. -/
  fmtQ : String → String
  /-- Function `name.ParseReference` with the default tag and registry. -/
  ParseReference : String → String → String → Except GoError Reference
  /-- Function `remote.Image` with the options built from the credentials
  and, when a progress bar is given, the progress transport. -/
  RemoteImage : Reference → Option DockerAuthConfig → String → Bool → Except GoError Image
  /-- Function `os.MkdirTemp("", "oras-tmp-")`. -/
  MkdirTemp : Except GoError String
  /-- Function `layout.Write(dir, empty.Index)`. -/
  LayoutWrite : String → Option GoError
  /-- Method `AppendImage` of the layout. -/
  AppendImage : String → Nat → Option GoError
  /-- Method `Blob` of the layout: the bytes of the blob. -/
  LayoutBlob : String → Hash → Except GoError (List Byte)
  /-- Function `os.Create`: the error, if it fails. -/
  Create : String → Option GoError
  /-- Function `io.Copy` to the destination: `some (n, err)` when the copy
  fails with `err` after `n` bytes were written. -/
  CopyFail : Option (Nat × GoError)
  /-- Function `image.Init(path, false)` on the node found at `path`. -/
  ImageInit : String → Option Node → Except GoError ImageType
  /-- Function `os.RemoveAll`: the error, if it fails. -/
  RemoveAll : String → Option GoError
  /-- Function `NewImageFromSIF` of the package. -/
  NewImageFromSIF : String → String → Except GoError Image
  /-- Function `useragent.Value`. -/
  UserAgent : String
  /-- Function `term.IsTerminal`. -/
  IsTerminal : Nat → Bool
  /-- Function `remote.Write`: the error, if it fails. -/
  RemoteWrite : Reference → Nat → Option DockerAuthConfig → String → Bool → Option GoError
  /-- Function `os.Open`: the error, if it fails on an existing path. -/
  OpenFail : String → Option GoError
  /-- A read failure on the file at a path: `some (n, err)` when reading
  fails with `err` after `n` bytes. -/
  ReadFail : String → Option (Nat × GoError)
  /-- The checksum of `crypto/sha256`, of `sha256.Size` = 32 bytes. -/
  Sha256 : List Byte → { d : List Byte // d.length = 32 }
  /-- Function `ggcrv1.NewHash`. -/
  NewHash : String → Except GoError Hash

/-- Constant `name.DefaultTag`. -/
def DefaultTag : String := "latest"

/-- Constant `name.DefaultRegistry`. -/
def DefaultRegistry : String := "index.docker.io"

/-! ## String helpers -/

/-- Function `strings.TrimPrefix`. -/
def TrimPrefix (s pre : String) : String :=
  if pre.data.isPrefixOf s.data then ⟨s.data.drop pre.data.length⟩ else s

/-- Function `strings.HasPrefix`. -/
def HasPrefix (s pre : String) : Bool :=
  pre.data.isPrefixOf s.data

/-! ## Operating-system calls -/

/-- Function `os.RemoveAll`: on success nothing is left at `path`. -/
def osRemoveAll (E : Env) (path : String) (w : World) : Option GoError × World :=
  let w := w.emit (.RemoveAll path)
  match E.RemoveAll path with
  | some err => (some err, w)
  | none => (none, w.write path none)

/-- Function `os.Open` followed by reading the file to its end. -/
def osOpen (E : Env) (path : String) (w : World) : Except GoError Reader × World :=
  let w := w.emit (.Open path)
  match E.OpenFail path with
  | some err => (.error err, w)
  | none =>
    match w.fs path with
    | none => (.error (.new ("open " ++ path ++ ": no such file or directory")), w)
    | some .dir => (.ok ⟨[], some (.new ("read " ++ path ++ ": is a directory"))⟩, w)
    | some (.file b) =>
      match E.ReadFail path with
      | some (n, err) => (.ok ⟨b.take n, some err⟩, w)
      | none => (.ok ⟨b, none⟩, w)

/-! ## remoteImage and RefHash -/

/-- Function `remoteImage`. -/
def remoteImage (E : Env) (ref : String) (ociAuth : Option DockerAuthConfig)
    (reqAuthFile : String) (pb : Bool) (w : World) :
    Except GoError Image × World :=
  let ref := TrimPrefix ref "oras://"
  let ref := TrimPrefix ref "//"
  let w := w.emit (.ParseReference ref DefaultTag DefaultRegistry)
  match E.ParseReference ref DefaultTag DefaultRegistry with
  | .error err =>
    (.error (.wrap ("invalid reference " ++ E.fmtQ ref ++ ": " ++ err.Error) err), w)
  | .ok ir =>
    let w := w.emit (.RemoteImage ir pb)
    match E.RemoteImage ir ociAuth reqAuthFile pb with
    | .error err => (.error err, w)
    | .ok im => (.ok im, w)

/-- Function `RefHash`. -/
def RefHash (E : Env) (ref : String) (ociAuth : Option DockerAuthConfig)
    (reqAuthFile : String) (w : World) : (Hash × Option GoError) × World :=
  match remoteImage E ref ociAuth reqAuthFile false w with
  | (.error err, w) => ((Hash.zero, some err), w)
  | (.ok im, w) =>
    let w := w.emit (.ImageManifest im.id)
    match im.Manifest with
    | .error err => ((Hash.zero, some err), w)
    | .ok manifest =>
      if manifest.Layers.length ≠ 1 then
        ((Hash.zero, some (.new ("ORAS SIF image should have a single layer, found " ++
          toString manifest.Layers.length))), w)
      else
        let layer := manifest.Layers.headD Descriptor.zero
        if layer.MediaType ≠ E.SifLayerMediaTypeV1 ∧
            layer.MediaType ≠ E.SifLayerMediaTypeProto then
          ((Hash.zero, some (.new ("invalid layer mediatype: " ++ layer.MediaType))), w)
        else
          let hash := layer.Digest
          ((hash, none), w)

/-! ## ensureSIF, DownloadImage, UploadImage -/

/-- Function `ensureSIF`. -/
def ensureSIF (E : Env) (filepath : String) (w : World) : Option GoError × World :=
  let w := w.emit (.ImageInit filepath)
  match E.ImageInit filepath (w.fs filepath) with
  | .error err =>
    (some (.new ("could not open image " ++ filepath ++ " for verification: " ++ err.Error)), w)
  | .ok ty =>
    -- defer img.File.Close()
    if ty ≠ .SIF ∧ ty ≠ .OCISIF then
      (some (.new (E.fmtQ filepath ++ " is not a SIF")), w.emit (.ImageClose filepath))
    else
      (none, w.emit (.ImageClose filepath))

/-- Function `DownloadImage`.  Each `defer` is run where the enclosing
block of the model ends, in the reverse order of registration. -/
def DownloadImage (E : Env) (path ref : String) (ociAuth : Option DockerAuthConfig)
    (reqAuthFile : String) (pb : Bool) (w : World) : Option GoError × World :=
  match remoteImage E ref ociAuth reqAuthFile pb w with
  | (.error err, w) => (some err, w)
  | (.ok im, w) =>
    let w := w.emit (.ImageManifest im.id)
    match im.Manifest with
    | .error err => (some err, w)
    | .ok manifest =>
      if manifest.Layers.length ≠ 1 then
        (some (.new ("ORAS SIF image should have a single layer, found " ++
          toString manifest.Layers.length)), w)
      else
        let layer := manifest.Layers.headD Descriptor.zero
        if layer.MediaType ≠ E.SifLayerMediaTypeV1 ∧
            layer.MediaType ≠ E.SifLayerMediaTypeProto then
          (some (.new ("invalid layer mediatype: " ++ layer.MediaType)), w)
        else
          let w := w.emit .MkdirTemp
          match E.MkdirTemp with
          | .error err => (some err, w)
          | .ok tmpDir =>
            let w := w.write tmpDir (some .dir)
            let r : Option GoError × World :=
              let w := w.emit (.LayoutWrite tmpDir)
              match E.LayoutWrite tmpDir with
              | some err => (some err, w)
              | none =>
                let w := w.emit (.AppendImage tmpDir im.id)
                match E.AppendImage tmpDir im.id with
                | some err => (some err, w)
                | none =>
                  let w := w.emit (.LayoutBlob tmpDir layer.Digest)
                  match E.LayoutBlob tmpDir layer.Digest with
                  | .error err => (some err, w)
                  | .ok blob =>
                    let r : Option GoError × World :=
                      let w := w.emit (.Create path)
                      match E.Create path with
                      | some err => (some err, w)
                      | none =>
                        let w := w.write path (some (.file []))
                        let r : Option GoError × World :=
                          let w := w.emit (.Copy path)
                          match E.CopyFail with
                          | some (n, err) =>
                            (some err, w.write path (some (.file (blob.take n))))
                          | none =>
                            let w := w.write path (some (.file blob))
                            match ensureSIF E path w with
                            | (some err, w) =>
                              -- os.RemoveAll(path), its result dropped
                              (some err, (osRemoveAll E path w).2)
                            | (none, w) => (none, w)
                        -- defer outFile.Close()
                        (r.1, r.2.emit (.FileClose path))
                    -- defer blob.Close()
                    (r.1, r.2.emit .BlobClose)
            -- defer func() { os.RemoveAll(tmpDir), logged on failure }
            (r.1,
              match osRemoveAll E tmpDir r.2 with
              | (some err, w) =>
                w.emit (.SylogErrorf ("while removing " ++ E.fmtQ tmpDir ++ ": " ++ err.Error))
              | (none, w) => w)

/-- Function `UploadImage`.  The goroutine that consumes the progress
updates is `progressConsumer` below; its start is the event `GoProgress`. -/
def UploadImage (E : Env) (path ref : String) (ociAuth : Option DockerAuthConfig)
    (reqAuthFile : String) (w : World) : Option GoError × World :=
  match ensureSIF E path w with
  | (some err, w) => (some err, w)
  | (none, w) =>
    let ref := TrimPrefix ref "oras://"
    let ref := TrimPrefix ref "//"
    let w := w.emit (.ParseReference ref DefaultTag DefaultRegistry)
    match E.ParseReference ref DefaultTag DefaultRegistry with
    | .error err => (some err, w)
    | .ok ir =>
      let w := w.emit (.NewImageFromSIF path E.SifLayerMediaTypeV1)
      match E.NewImageFromSIF path E.SifLayerMediaTypeV1 with
      | .error err => (some err, w)
      | .ok im =>
        let w := w.emit (.IsTerminal 2)
        if E.IsTerminal 2 then
          let w := w.emit .GoProgress
          let w := w.emit (.RemoteWrite ir im.id E.UserAgent true)
          (E.RemoteWrite ir im.id ociAuth reqAuthFile true, w)
        else
          let w := w.emit (.RemoteWrite ir im.id E.UserAgent false)
          (E.RemoteWrite ir im.id ociAuth reqAuthFile false, w)

/-! ## The upload progress consumer -/

/-- The value of an `int64` (and of an `int` on a 64-bit target) holding
the integer `x` after wrap-around. -/
def wrapInt64 (x : Int) : Int :=
  (x + 2 ^ 63) % 2 ^ 64 - 2 ^ 63

/-- The goroutine started by `UploadImage`, run on the updates received
from `progChan` with the tracked `total` and `soFar`.  It returns the calls
made on the progress bar, whether the goroutine returned (otherwise it is
waiting for the next update) and the updates it did not receive. -/
def progressConsumer (total soFar : Int) : List Update → List BarEvent × Bool × List Update
  | [] => ([], false, [])
  | update :: rest =>
    if update.Error ≠ none then
      ([.Abort false], true, rest)
    else
      let init : List BarEvent := if update.Total ≠ total then [.Init update.Total] else []
      let total := if update.Total ≠ total then update.Total else total
      -- int(update.Complete - soFar): the int64 difference, converted to int
      let incr : BarEvent := .IncrBy (wrapInt64 (wrapInt64 (update.Complete - soFar)))
      let soFar := update.Complete
      if soFar ≥ total then
        (init ++ [incr, .Wait], true, rest)
      else
        let r := progressConsumer total soFar rest
        (init ++ [incr] ++ r.1, r.2.1, r.2.2)

/-! ## Digests of local files -/

/-- The table `hextable` of `encoding/hex`. -/
def hextable : List Char := "0123456789abcdef".data

/-- Function `hex.EncodeToString`. -/
def EncodeToString (src : List Byte) : String :=
  ⟨src.flatMap fun v => [hextable.getD (v.val / 16) '0', hextable.getD (v.val % 16) '0']⟩

/-- Function `sha256sum`: `io.Copy` feeds the reader to the hash and
returns the number of bytes copied and the read error, if any. -/
def sha256sum (E : Env) (r : Reader) : String × Int × Option GoError :=
  let nBytes : Int := r.data.length
  match r.err with
  | some err => ("", 0, some err)
  | none => ("sha256:" ++ EncodeToString (E.Sha256 r.data).val, nBytes, none)

/-- Function `ImageHash`. -/
def ImageHash (E : Env) (filePath : String) (w : World) : (Hash × Option GoError) × World :=
  match osOpen E filePath w with
  | (.error err, w) => ((Hash.zero, some err), w)
  | (.ok file, w) =>
    -- defer file.Close()
    let r : Hash × Option GoError :=
      match sha256sum E file with
      | (_, _, some err) => (Hash.zero, some err)
      | (sha, _, none) =>
        match E.NewHash sha with
        | .error err => (Hash.zero, some err)
        | .ok hash => (hash, none)
    (r, w.emit (.FileClose filePath))

/-! ## Specification vocabulary -/

/-- Going from `w` to `w'` no filesystem operation was performed: the
filesystem is the same and the calls recorded since `w` include no
filesystem call. -/
def NoFilesystemEffect (w w' : World) : Prop :=
  w'.fs = w.fs ∧ ∃ evs, w'.trace = w.trace ++ evs ∧ ∀ e ∈ evs, e.isFilesystem = false

/-- Going from `w` to `w'` no request was sent to the registry. -/
def NoRegistryRequest (w w' : World) : Prop :=
  ∃ evs, w'.trace = w.trace ++ evs ∧ ∀ e ∈ evs, e.isRegistry = false

/-- The reference definition of the digest query on a fetched manifest:
the recorded digest of the sole layer when it is a SIF layer, the zero hash
and the layer-count error when the manifest has not exactly one layer, the
zero hash and the media-type error otherwise. -/
def RefHash_spec (E : Env) (manifest : Manifest) : Hash × Option GoError :=
  match manifest.Layers with
  | [layer] =>
    if layer.MediaType = E.SifLayerMediaTypeV1 ∨ layer.MediaType = E.SifLayerMediaTypeProto then
      (layer.Digest, none)
    else
      (Hash.zero, some (.new ("invalid layer mediatype: " ++ layer.MediaType)))
  | layers =>
    (Hash.zero, some (.new ("ORAS SIF image should have a single layer, found " ++
      toString layers.length)))

/-- The value of a hexadecimal digit: its place in `hextable`. -/
def hexValue (c : Char) : Nat := hextable.indexOf c

/-- The bytes written by a string of hexadecimal digits, two digits to a
byte, the high digit first. -/
def decodePairs : List Char → List Nat
  | hi :: lo :: rest => (16 * hexValue hi + hexValue lo) :: decodePairs rest
  | _ => []

/-- The totals passed to `Init` when it is called exactly at the updates
whose `Total` differs from the tracked total, which starts at `tracked` and
is the `Total` of the last update received afterwards. -/
def expectedInits (tracked : Int) : List Update → List Int
  | [] => []
  | u :: us => (if u.Total ≠ tracked then [u.Total] else []) ++ expectedInits u.Total us

/-- The totals passed to `Init` among the calls on the progress bar. -/
def initTotals (evs : List BarEvent) : List Int :=
  evs.filterMap fun e => match e with
    | .Init t => some t
    | _ => none

/-- The increments passed to `IncrBy` among the calls on the progress bar. -/
def increments (evs : List BarEvent) : List Int :=
  evs.filterMap fun e => match e with
    | .IncrBy n => some n
    | _ => none

/-- The call of `Init` made on an update with total `t` when the tracked
total is `total`, if any. -/
def initCall (t total : Int) : List BarEvent :=
  if t ≠ total then [.Init t] else []

/-- A byte count held in an `int64`. -/
def isByteCount (x : Int) : Prop := 0 ≤ x ∧ x < 2 ^ 63

instance (x : Int) : Decidable (isByteCount x) :=
  inferInstanceAs (Decidable (0 ≤ x ∧ x < 2 ^ 63))

/-! ## A sample environment -/

/-- Quoting of a string without characters that need an escape. -/
def sampleQuote (s : String) : String := "\"" ++ s ++ "\""

/-- A sample layer descriptor with media type `mt`. -/
def sampleLayer (mt : String) : Descriptor :=
  ⟨mt, 4, ⟨"sha256", "9f64a747e1b97f131fabb6b447296c9b6f0201e79fb3c5356e6c77e89b6a806a"⟩⟩

/-- A sample image: image `n` has `n` layers of media type `mt`. -/
def sampleImage (n : Nat) (mt : String) : Image :=
  ⟨n, .ok ⟨List.replicate n (sampleLayer mt)⟩⟩

/-- A sample reference parser: it rejects the empty string and strings with
a blank or a second colon, and fills in the defaults otherwise. -/
def sampleParse (s defaultTag defaultRegistry : String) : Except GoError Reference :=
  if s = "" ∨ ' ' ∈ s.data ∨ 1 < s.data.count ':' then
    .error (.new ("could not parse reference: " ++ s))
  else
    .ok ⟨defaultRegistry, s, defaultTag⟩

/-- A sample checksum standing for SHA-256: 32 copies of the byte sum. -/
def sampleSum (b : List Byte) : { d : List Byte // d.length = 32 } :=
  ⟨List.replicate 32 (b.foldl (· + ·) 0), by simp⟩

/-- Function `strings.Split(s, ":")` on the characters of `s`, with the
part read so far in `cur`. -/
def splitColon (cur : List Char) : List Char → List (List Char)
  | [] => [cur]
  | c :: cs => if c = ':' then cur :: splitColon [] cs else splitColon (cur ++ [c]) cs

/-- Function `ggcrv1.NewHash` of go-containerregistry (method `parse`):
two parts around one colon, the second of lowercase hexadecimal digits, the
first the name of a supported hasher, and as many digits as twice the size
of its checksum. -/
def sampleNewHash (fmtQ : String → String) (s : String) : Except GoError Hash :=
  match splitColon [] s.data with
  | [alg, hex] =>
    match hex.dropWhile (· ∈ hextable) with
    | c :: _ => .error (.new ("found non-hex character in hash: " ++ String.singleton c))
    | [] =>
      if String.mk alg ≠ "sha256" then
        .error (.new ("unsupported hash: " ++ fmtQ (String.mk alg)))
      else if hex.length ≠ 32 * 2 then
        .error (.new ("wrong number of hex digits for " ++ String.mk alg ++ ": " ++ String.mk hex))
      else
        .ok ⟨String.mk alg, String.mk hex⟩
  | _ => .error (.new ("cannot parse hash: " ++ fmtQ s))

/-- A sample environment: the registry holds a two-layer image under
`ns/two`, an image with a foreign layer under `ns/tar` and a one-layer SIF
image elsewhere; files whose first byte is 83 are SIF images; no call to
the operating system fails. -/
def sampleEnv : Env where
  SifLayerMediaTypeV1 := "application/vnd.sylabs.sif.layer.v1.sif"
  SifLayerMediaTypeProto := "appliciation/vnd.sylabs.sif.layer.tar"
  fmtQ := sampleQuote
  ParseReference := sampleParse
  RemoteImage := fun ir _ _ _ =>
    if ir.Repository = "registry.example.org/ns/two" then
      .ok (sampleImage 2 "application/vnd.sylabs.sif.layer.v1.sif")
    else if ir.Repository = "registry.example.org/ns/tar" then
      .ok (sampleImage 1 "application/vnd.oci.image.layer.v1.tar")
    else if ir.Repository = "registry.example.org/ns/gone" then
      .error (.new "MANIFEST_UNKNOWN: manifest unknown")
    else
      .ok (sampleImage 1 "application/vnd.sylabs.sif.layer.v1.sif")
  MkdirTemp := .ok "/tmp/oras-tmp-1"
  LayoutWrite := fun _ => none
  AppendImage := fun _ _ => none
  LayoutBlob := fun _ _ => .ok [83, 73, 70, 0]
  Create := fun _ => none
  CopyFail := none
  ImageInit := fun path n =>
    match n with
    | some (.file (83 :: _)) => .ok .SIF
    | some (.file _) => .ok .RAW
    | some .dir => .ok .SANDBOX
    | none => .error (.new ("open " ++ path ++ ": no such file or directory"))
  RemoveAll := fun _ => none
  NewImageFromSIF := fun _ mt => .ok (sampleImage 1 mt)
  UserAgent := "Singularity/4.0.0 (Linux amd64) Go/1.21"
  IsTerminal := fun _ => false
  RemoteWrite := fun _ _ _ _ _ => none
  OpenFail := fun _ => none
  ReadFail := fun _ => none
  Sha256 := sampleSum
  NewHash := sampleNewHash sampleQuote

/-- The sample environment where the blob is not a SIF image and the
destination cannot be removed: a writable file in a directory that the
caller may not change. -/
def lockedEnv : Env :=
  { sampleEnv with
    LayoutBlob := fun _ _ => .ok [0, 1, 2, 3]
    RemoveAll := fun p =>
      if p = "/images/image.sif" then
        some (.new "unlinkat /images/image.sif: permission denied")
      else none }

/-- The sample environment where the copy of the blob fails after two
bytes. -/
def brokenCopyEnv : Env :=
  { sampleEnv with CopyFail := some (2, .new "unexpected EOF") }

/-- The empty filesystem with an empty trace. -/
def emptyWorld : World := ⟨fun _ => none, []⟩

/-- A filesystem with a SIF image at `/images/image.sif` and a file that is
not a SIF image at `/images/raw.img`. -/
def sampleWorld : World :=
  (emptyWorld.write "/images/image.sif" (some (.file [83, 73, 70, 0]))).write
    "/images/raw.img" (some (.file [1, 2, 3]))

/-! ## The state after each call -/

@[simp] theorem World.emit_fs (w : World) (e : Event) : (w.emit e).fs = w.fs := rfl

@[simp] theorem World.emit_trace (w : World) (e : Event) :
    (w.emit e).trace = w.trace ++ [e] := rfl

@[simp] theorem World.write_fs (w : World) (p : String) (n : Option Node) :
    (w.write p n).fs = w.fs.set p n := rfl

@[simp] theorem World.write_trace (w : World) (p : String) (n : Option Node) :
    (w.write p n).trace = w.trace := rfl

@[simp] theorem FS.set_same (fs : FS) (p : String) (n : Option Node) : fs.set p n p = n := by
  simp [FS.set]

theorem FS.set_other (fs : FS) (p q : String) (n : Option Node) (h : q ≠ p) :
    fs.set p n q = fs q := by
  simp [FS.set, h]

theorem osRemoveAll_result (E : Env) (p : String) (w : World) :
    (osRemoveAll E p w).1 = E.RemoveAll p := by
  simp only [osRemoveAll]
  cases E.RemoveAll p <;> rfl

theorem osRemoveAll_trace (E : Env) (p : String) (w : World) :
    (osRemoveAll E p w).2.trace = w.trace ++ [Event.RemoveAll p] := by
  simp only [osRemoveAll]
  cases E.RemoveAll p <;> rfl

theorem osRemoveAll_fs (E : Env) (p : String) (w : World) :
    (osRemoveAll E p w).2.fs = if E.RemoveAll p = none then w.fs.set p none else w.fs := by
  simp only [osRemoveAll]
  cases E.RemoveAll p <;> simp

/-- The calls made by `ensureSIF`: the image detector, then the close of
the image file if it was opened. -/
theorem ensureSIF_trace (E : Env) (p : String) (w : World) :
    ∃ evs, (ensureSIF E p w).2.trace = w.trace ++ Event.ImageInit p :: evs ∧
      (evs = [] ∨ evs = [Event.ImageClose p]) := by
  simp only [ensureSIF, World.emit_fs]
  cases E.ImageInit p (w.fs p) with
  | error err => exact ⟨[], by simp, by simp⟩
  | ok ty =>
    dsimp only
    split <;> exact ⟨[Event.ImageClose p], by simp, by simp⟩

theorem ensureSIF_fs (E : Env) (p : String) (w : World) : (ensureSIF E p w).2.fs = w.fs := by
  simp only [ensureSIF, World.emit_fs]
  cases E.ImageInit p (w.fs p) with
  | error err => rfl
  | ok ty =>
    dsimp only
    split <;> rfl

theorem ensureSIF_trace_of {E : Env} {p : String} {w w' : World} {e : Option GoError}
    (h : ensureSIF E p w = (e, w')) :
    ∃ evs, w'.trace = w.trace ++ Event.ImageInit p :: evs ∧
      (evs = [] ∨ evs = [Event.ImageClose p]) := by
  have := ensureSIF_trace E p w
  rw [h] at this
  exact this

/-- The result of `ensureSIF` depends on the state only through what is at
the path. -/
theorem ensureSIF_result_congr (E : Env) (p : String) (w w' : World) (h : w.fs p = w'.fs p) :
    (ensureSIF E p w).1 = (ensureSIF E p w').1 := by
  simp only [ensureSIF, World.emit_fs, h]
  cases E.ImageInit p (w'.fs p) with
  | error err => rfl
  | ok ty =>
    dsimp only
    split <;> rfl

theorem ensureSIF_result_of {E : Env} {p : String} {w w' : World} {e : Option GoError}
    (h : ensureSIF E p w = (e, w')) (w2 : World) (hfs : w.fs p = w2.fs p) :
    (ensureSIF E p w2).1 = e := by
  rw [← ensureSIF_result_congr E p w w2 hfs, h]

theorem ensureSIF_fs_of {E : Env} {p : String} {w w' : World} {e : Option GoError}
    (h : ensureSIF E p w = (e, w')) : w'.fs = w.fs := by
  have := ensureSIF_fs E p w
  rw [h] at this
  exact this

/-- The calls made by the deferred removal of the staging directory. -/
theorem deferred_trace (E : Env) (d : String) (w : World) :
    (match osRemoveAll E d w with
      | (some err, w) =>
        w.emit (.SylogErrorf ("while removing " ++ E.fmtQ d ++ ": " ++ err.Error))
      | (none, w) => w).trace =
    w.trace ++ [Event.RemoveAll d] ++
      (match E.RemoveAll d with
        | some err => [Event.SylogErrorf ("while removing " ++ E.fmtQ d ++ ": " ++ err.Error)]
        | none => []) := by
  simp only [osRemoveAll]
  cases E.RemoveAll d <;> simp

theorem deferred_fs (E : Env) (d : String) (w : World) :
    (match osRemoveAll E d w with
      | (some err, w) =>
        w.emit (.SylogErrorf ("while removing " ++ E.fmtQ d ++ ": " ++ err.Error))
      | (none, w) => w).fs =
    if E.RemoveAll d = none then w.fs.set d none else w.fs := by
  simp only [osRemoveAll]
  cases E.RemoveAll d <;> simp

/-! ## Reference normalization -/

theorem TrimPrefix_append (p r : String) : TrimPrefix (p ++ r) p = r := by
  unfold TrimPrefix
  have h : p.data.isPrefixOf (p ++ r).data = true := by
    rw [String.data_append]; simp
  rw [if_pos h]
  simp [String.data_append]

theorem TrimPrefix_of_not_HasPrefix (s p : String) (h : HasPrefix s p = false) :
    TrimPrefix s p = s := by
  unfold TrimPrefix
  unfold HasPrefix at h
  simp [h]

theorem HasPrefix_oras_slashes (r : String) : HasPrefix ("//" ++ r) "oras://" = false := by
  unfold HasPrefix
  rw [String.data_append]
  simp [List.isPrefixOf]

/-- The two calls of `strings.TrimPrefix` made by `remoteImage` and by
`UploadImage` return `r` on each of the four spellings of `r`. -/
theorem normalize_spellings (r : String) (h1 : HasPrefix r "oras://" = false)
    (h2 : HasPrefix r "//" = false) :
    ∀ v ∈ [r, "//" ++ r, "oras://" ++ r, "oras:////" ++ r],
      TrimPrefix (TrimPrefix v "oras://") "//" = r := by
  intro v hv
  simp only [List.mem_cons, List.mem_singleton, List.not_mem_nil, or_false] at hv
  rcases hv with rfl | rfl | rfl | rfl
  · rw [TrimPrefix_of_not_HasPrefix _ _ h1, TrimPrefix_of_not_HasPrefix _ _ h2]
  · rw [TrimPrefix_of_not_HasPrefix _ _ (HasPrefix_oras_slashes r), TrimPrefix_append]
  · rw [TrimPrefix_append, TrimPrefix_of_not_HasPrefix _ _ h2]
  · have e : "oras:////" ++ r = "oras://" ++ ("//" ++ r) := by
      apply String.ext; simp
    rw [e, TrimPrefix_append, TrimPrefix_append]

/-- Claim C6: for every `r` that begins with neither `oras://` nor `//`,
each of `r`, `//r`, `oras://r` and `oras:////r` is normalized to exactly `r`
by the two prefix removals; `remoteImage` hands `r` to the reference parser
with the default tag and the default registry as its first call, and
`remoteImage`, `DownloadImage`, `RefHash` and `UploadImage` each return on
the spelling what they return on `r` itself; `UploadImage` hands `r` to the
parser right after a successful `ensureSIF`. -/
theorem reference_normalization (E : Env) (r : String)
    (h1 : HasPrefix r "oras://" = false) (h2 : HasPrefix r "//" = false)
    (path : String) (ociAuth : Option DockerAuthConfig) (reqAuthFile : String)
    (pb : Bool) (w : World) :
    ∀ v ∈ [r, "//" ++ r, "oras://" ++ r, "oras:////" ++ r],
      TrimPrefix (TrimPrefix v "oras://") "//" = r ∧
      (∃ evs, (remoteImage E v ociAuth reqAuthFile pb w).2.trace =
        w.trace ++ Event.ParseReference r DefaultTag DefaultRegistry :: evs) ∧
      remoteImage E v ociAuth reqAuthFile pb w = remoteImage E r ociAuth reqAuthFile pb w ∧
      DownloadImage E path v ociAuth reqAuthFile pb w =
        DownloadImage E path r ociAuth reqAuthFile pb w ∧
      RefHash E v ociAuth reqAuthFile w = RefHash E r ociAuth reqAuthFile w ∧
      UploadImage E path v ociAuth reqAuthFile w = UploadImage E path r ociAuth reqAuthFile w ∧
      ((ensureSIF E path w).1 = none →
        ∃ evs, (UploadImage E path v ociAuth reqAuthFile w).2.trace =
          (ensureSIF E path w).2.trace ++
            Event.ParseReference r DefaultTag DefaultRegistry :: evs) := by
  intro v hv
  have hn := normalize_spellings r h1 h2 v hv
  have hr := normalize_spellings r h1 h2 r (by simp)
  have hrem : ∀ b, remoteImage E v ociAuth reqAuthFile b w =
      remoteImage E r ociAuth reqAuthFile b w := by
    intro b
    simp only [remoteImage, hn, hr]
  refine ⟨hn, ?_, hrem pb, ?_, ?_, ?_, ?_⟩
  · simp only [remoteImage, hn, World.emit]
    cases E.ParseReference r DefaultTag DefaultRegistry with
    | error err => exact ⟨[], by simp⟩
    | ok ir =>
      dsimp only
      cases E.RemoteImage ir ociAuth reqAuthFile pb with
      | error err => exact ⟨[Event.RemoteImage ir pb], by simp⟩
      | ok im => exact ⟨[Event.RemoteImage ir pb], by simp⟩
  · simp only [DownloadImage, hrem pb]
  · simp only [RefHash, hrem false]
  · simp only [UploadImage, hn, hr]
  · intro hs
    simp only [UploadImage, hn]
    rcases hens : ensureSIF E path w with ⟨e, w1⟩
    rw [hens] at hs
    simp only at hs
    subst hs
    simp only [World.emit]
    cases E.ParseReference r DefaultTag DefaultRegistry with
    | error err => exact ⟨[], by simp⟩
    | ok ir =>
      dsimp only
      cases E.NewImageFromSIF path E.SifLayerMediaTypeV1 with
      | error err => exact ⟨[Event.NewImageFromSIF path E.SifLayerMediaTypeV1], by simp⟩
      | ok im =>
        by_cases ht : E.IsTerminal 2 = true
        · exact ⟨[Event.NewImageFromSIF path E.SifLayerMediaTypeV1, Event.IsTerminal 2,
            Event.GoProgress, Event.RemoteWrite ir im.id E.UserAgent true], by simp [ht]⟩
        · exact ⟨[Event.NewImageFromSIF path E.SifLayerMediaTypeV1, Event.IsTerminal 2,
            Event.RemoteWrite ir im.id E.UserAgent false], by simp [ht]⟩

/-- Witness of claim C6: the reference
`oras://registry.example.org/ns/image:latest`. -/
theorem reference_normalization_witness :
    HasPrefix "registry.example.org/ns/image:latest" "oras://" = false ∧
    HasPrefix "registry.example.org/ns/image:latest" "//" = false ∧
    "oras://" ++ "registry.example.org/ns/image:latest" =
      "oras://registry.example.org/ns/image:latest" ∧
    TrimPrefix (TrimPrefix ("oras://" ++ "registry.example.org/ns/image:latest") "oras://") "//"
      = "registry.example.org/ns/image:latest" :=
  ⟨by decide, by decide, by decide,
    (reference_normalization sampleEnv "registry.example.org/ns/image:latest"
      (by decide) (by decide) "/images/image.sif" none "" false emptyWorld
      ("oras://" ++ "registry.example.org/ns/image:latest") (by simp)).1⟩

/-! ## Manifest validation in DownloadImage and RefHash -/

theorem remoteImage_fs (E : Env) (ref : String) (ociAuth : Option DockerAuthConfig)
    (reqAuthFile : String) (pb : Bool) (w : World) :
    (remoteImage E ref ociAuth reqAuthFile pb w).2.fs = w.fs := by
  simp only [remoteImage, World.emit]
  cases E.ParseReference (TrimPrefix (TrimPrefix ref "oras://") "//") DefaultTag DefaultRegistry with
  | error err => rfl
  | ok ir =>
    dsimp only
    cases E.RemoteImage ir ociAuth reqAuthFile pb <;> rfl

theorem remoteImage_trace (E : Env) (ref : String) (ociAuth : Option DockerAuthConfig)
    (reqAuthFile : String) (pb : Bool) (w : World) :
    ∃ evs, (remoteImage E ref ociAuth reqAuthFile pb w).2.trace = w.trace ++ evs ∧
      ∀ e ∈ evs, e.isFilesystem = false := by
  simp only [remoteImage, World.emit]
  cases E.ParseReference (TrimPrefix (TrimPrefix ref "oras://") "//") DefaultTag DefaultRegistry with
  | error err =>
    exact ⟨[_], rfl, by simp [Event.isFilesystem, Event.isFilesystemChange, Event.isFilesystemRead]⟩
  | ok ir =>
    dsimp only
    cases E.RemoteImage ir ociAuth reqAuthFile pb <;>
    exact ⟨[Event.ParseReference (TrimPrefix (TrimPrefix ref "oras://") "//") DefaultTag
        DefaultRegistry, Event.RemoteImage ir pb], by simp,
      by simp [Event.isFilesystem, Event.isFilesystemChange, Event.isFilesystemRead]⟩

/-- After `remoteImage` and the call of `Manifest()` no filesystem
operation has been performed. -/
theorem manifest_step_noFilesystemEffect (E : Env) (ref : String)
    (ociAuth : Option DockerAuthConfig) (reqAuthFile : String) (pb : Bool) (w : World)
    (id : Nat) :
    NoFilesystemEffect w
      ((remoteImage E ref ociAuth reqAuthFile pb w).2.emit (Event.ImageManifest id)) := by
  obtain ⟨evs, h1, h2⟩ := remoteImage_trace E ref ociAuth reqAuthFile pb w
  refine ⟨remoteImage_fs E ref ociAuth reqAuthFile pb w, evs ++ [Event.ImageManifest id], ?_, ?_⟩
  · simp [World.emit, h1]
  · intro e he
    rcases List.mem_append.1 he with h | h
    · exact h2 e h
    · simp only [List.mem_singleton] at h
      subst h
      rfl

/-- The manifest validation of `DownloadImage`: a manifest with a layer
count other than one, or with a sole layer of a foreign media type, is
rejected before any filesystem operation. -/
theorem DownloadImage_manifest_rejected (E : Env) (path ref : String)
    (ociAuth : Option DockerAuthConfig) (reqAuthFile : String) (pb : Bool) (w : World) :
    (∀ im manifest, (remoteImage E ref ociAuth reqAuthFile pb w).1 = .ok im →
      im.Manifest = .ok manifest → manifest.Layers.length ≠ 1 →
      (DownloadImage E path ref ociAuth reqAuthFile pb w).1 =
        some (.new ("ORAS SIF image should have a single layer, found " ++
          toString manifest.Layers.length)) ∧
      NoFilesystemEffect w (DownloadImage E path ref ociAuth reqAuthFile pb w).2) ∧
    (∀ im layer, (remoteImage E ref ociAuth reqAuthFile pb w).1 = .ok im →
      im.Manifest = .ok ⟨[layer]⟩ →
      layer.MediaType ≠ E.SifLayerMediaTypeV1 → layer.MediaType ≠ E.SifLayerMediaTypeProto →
      (DownloadImage E path ref ociAuth reqAuthFile pb w).1 =
        some (.new ("invalid layer mediatype: " ++ layer.MediaType)) ∧
      NoFilesystemEffect w (DownloadImage E path ref ociAuth reqAuthFile pb w).2) := by
  have hstep := manifest_step_noFilesystemEffect E ref ociAuth reqAuthFile pb w
  rcases hf : remoteImage E ref ociAuth reqAuthFile pb w with ⟨res, w1⟩
  rw [hf] at hstep
  simp only at hstep
  refine ⟨?_, ?_⟩
  · intro im manifest h hM hlen
    simp only at h
    subst h
    simp only [DownloadImage, hf, hM, ne_eq, hlen, not_false_eq_true, if_true]
    exact ⟨trivial, hstep im.id⟩
  · intro im layer h hM h1 h2
    simp only at h
    subst h
    simp only [DownloadImage, hf, hM, ne_eq, List.length_singleton, not_true_eq_false,
      if_false, List.headD_cons, h1, h2, not_false_eq_true, and_self, if_true]
    exact ⟨trivial, hstep im.id⟩

/-- Claim C1: when reference resolution or the remote fetch fails, when the
manifest cannot be retrieved, when the manifest has not exactly one layer,
or when its sole layer has a media type other than the two SIF layer media
types, `DownloadImage` returns the error (with the messages of the claim in
the last two cases) and has performed no filesystem operation: the
filesystem is unchanged and no filesystem call was made. -/
theorem DownloadImage_rejected_no_filesystem_effect (E : Env) (path ref : String)
    (ociAuth : Option DockerAuthConfig) (reqAuthFile : String) (pb : Bool) (w : World) :
    (∀ err, (remoteImage E ref ociAuth reqAuthFile pb w).1 = .error err →
      (DownloadImage E path ref ociAuth reqAuthFile pb w).1 = some err ∧
      NoFilesystemEffect w (DownloadImage E path ref ociAuth reqAuthFile pb w).2) ∧
    (∀ im err, (remoteImage E ref ociAuth reqAuthFile pb w).1 = .ok im →
      im.Manifest = .error err →
      (DownloadImage E path ref ociAuth reqAuthFile pb w).1 = some err ∧
      NoFilesystemEffect w (DownloadImage E path ref ociAuth reqAuthFile pb w).2) ∧
    (∀ im manifest, (remoteImage E ref ociAuth reqAuthFile pb w).1 = .ok im →
      im.Manifest = .ok manifest → manifest.Layers.length ≠ 1 →
      (DownloadImage E path ref ociAuth reqAuthFile pb w).1 =
        some (.new ("ORAS SIF image should have a single layer, found " ++
          toString manifest.Layers.length)) ∧
      NoFilesystemEffect w (DownloadImage E path ref ociAuth reqAuthFile pb w).2) ∧
    (∀ im layer, (remoteImage E ref ociAuth reqAuthFile pb w).1 = .ok im →
      im.Manifest = .ok ⟨[layer]⟩ →
      layer.MediaType ≠ E.SifLayerMediaTypeV1 → layer.MediaType ≠ E.SifLayerMediaTypeProto →
      (DownloadImage E path ref ociAuth reqAuthFile pb w).1 =
        some (.new ("invalid layer mediatype: " ++ layer.MediaType)) ∧
      NoFilesystemEffect w (DownloadImage E path ref ociAuth reqAuthFile pb w).2) := by
  have hfs := remoteImage_fs E ref ociAuth reqAuthFile pb w
  obtain ⟨evs, htr, hev⟩ := remoteImage_trace E ref ociAuth reqAuthFile pb w
  have hstep := manifest_step_noFilesystemEffect E ref ociAuth reqAuthFile pb w
  have hman := DownloadImage_manifest_rejected E path ref ociAuth reqAuthFile pb w
  refine ⟨?_, ?_, hman.1, hman.2⟩
  · intro err h
    rcases hf : remoteImage E ref ociAuth reqAuthFile pb w with ⟨res, w1⟩
    rw [hf] at hfs htr h
    simp only at hfs htr h
    subst h
    simp only [DownloadImage, hf]
    exact ⟨trivial, hfs, evs, htr, hev⟩
  · intro im err h hM
    rcases hf : remoteImage E ref ociAuth reqAuthFile pb w with ⟨res, w1⟩
    rw [hf] at hstep h
    simp only at hstep h
    subst h
    simp only [DownloadImage, hf, hM]
    exact ⟨trivial, hstep im.id⟩

/-- Witness of claim C1: a manifest with two layers of the SIF media type. -/
theorem DownloadImage_rejected_no_filesystem_effect_witness :
    (DownloadImage sampleEnv "/images/two.sif" "oras://registry.example.org/ns/two"
      none "" false emptyWorld).1 =
      some (.new ("ORAS SIF image should have a single layer, found " ++ toString 2)) ∧
    NoFilesystemEffect emptyWorld
      (DownloadImage sampleEnv "/images/two.sif" "oras://registry.example.org/ns/two"
        none "" false emptyWorld).2 :=
  (DownloadImage_rejected_no_filesystem_effect sampleEnv "/images/two.sif"
    "oras://registry.example.org/ns/two" none "" false emptyWorld).2.2.1
    (sampleImage 2 "application/vnd.sylabs.sif.layer.v1.sif")
    ⟨List.replicate 2 (sampleLayer "application/vnd.sylabs.sif.layer.v1.sif")⟩
    (by rfl) (by rfl) (by decide)

/-- The calls of a `DownloadImage` run that created its staging directory:
the calls of the body, then the removal of the staging directory, then the
log line if the removal failed.  The body removes nothing but the
destination. -/
theorem DownloadImage_staged (E : Env) (path ref : String)
    (ociAuth : Option DockerAuthConfig) (reqAuthFile : String) (pb : Bool) (w : World)
    (im : Image) (layer : Descriptor) (tmpDir : String)
    (hIm : (remoteImage E ref ociAuth reqAuthFile pb w).1 = .ok im)
    (hM : im.Manifest = .ok ⟨[layer]⟩)
    (hT : layer.MediaType = E.SifLayerMediaTypeV1 ∨ layer.MediaType = E.SifLayerMediaTypeProto)
    (hTmp : E.MkdirTemp = .ok tmpDir) :
    ∃ body : List Event,
      (DownloadImage E path ref ociAuth reqAuthFile pb w).2.trace =
        (remoteImage E ref ociAuth reqAuthFile pb w).2.trace ++
          [Event.ImageManifest im.id, Event.MkdirTemp] ++ body ++ [Event.RemoveAll tmpDir] ++
          (match E.RemoveAll tmpDir with
            | some err =>
              [Event.SylogErrorf ("while removing " ++ E.fmtQ tmpDir ++ ": " ++ err.Error)]
            | none => []) ∧
      ∀ q, Event.RemoveAll q ∈ body → q = path := by
  rcases hf : remoteImage E ref ociAuth reqAuthFile pb w with ⟨res, w1⟩
  rw [hf] at hIm
  simp only at hIm
  subst hIm
  have hT' : ¬ (layer.MediaType ≠ E.SifLayerMediaTypeV1 ∧
      layer.MediaType ≠ E.SifLayerMediaTypeProto) := by
    rcases hT with h | h <;> simp [h]
  simp only [DownloadImage, hf, hM, hTmp, ne_eq, List.length_singleton, not_true_eq_false,
    if_false, List.headD_cons, hT', deferred_trace]
  split
  · exact ⟨[Event.LayoutWrite tmpDir], by simp, by simp⟩
  · split
    · exact ⟨[Event.LayoutWrite tmpDir, Event.AppendImage tmpDir im.id], by simp, by simp⟩
    · split
      · exact ⟨[Event.LayoutWrite tmpDir, Event.AppendImage tmpDir im.id,
          Event.LayoutBlob tmpDir layer.Digest], by simp, by simp⟩
      · split
        · exact ⟨[Event.LayoutWrite tmpDir, Event.AppendImage tmpDir im.id,
            Event.LayoutBlob tmpDir layer.Digest, Event.Create path, Event.BlobClose],
            by simp, by simp⟩
        · split
          · exact ⟨[Event.LayoutWrite tmpDir, Event.AppendImage tmpDir im.id,
              Event.LayoutBlob tmpDir layer.Digest, Event.Create path, Event.Copy path,
              Event.FileClose path, Event.BlobClose], by simp, by simp⟩
          · split
            · rename_i heq
              obtain ⟨evs, he, hevs⟩ := ensureSIF_trace_of heq
              refine ⟨[Event.LayoutWrite tmpDir, Event.AppendImage tmpDir im.id,
                Event.LayoutBlob tmpDir layer.Digest, Event.Create path, Event.Copy path,
                Event.ImageInit path] ++ evs ++ [Event.RemoveAll path, Event.FileClose path,
                Event.BlobClose], ?_, ?_⟩
              · simp [osRemoveAll_trace, he]
              · rcases hevs with h | h <;> simp [h]
            · rename_i heq
              obtain ⟨evs, he, hevs⟩ := ensureSIF_trace_of heq
              refine ⟨[Event.LayoutWrite tmpDir, Event.AppendImage tmpDir im.id,
                Event.LayoutBlob tmpDir layer.Digest, Event.Create path, Event.Copy path,
                Event.ImageInit path] ++ evs ++ [Event.FileClose path,
                Event.BlobClose], ?_, ?_⟩
              · simp [he]
              · rcases hevs with h | h <;> simp [h]

/-- The value returned by `DownloadImage` does not depend on what
`os.RemoveAll` answers. -/
theorem DownloadImage_result_RemoveAll (E : Env) (rm : String → Option GoError)
    (path ref : String) (ociAuth : Option DockerAuthConfig) (reqAuthFile : String)
    (pb : Bool) (w : World) :
    (DownloadImage { E with RemoveAll := rm } path ref ociAuth reqAuthFile pb w).1 =
      (DownloadImage E path ref ociAuth reqAuthFile pb w).1 := by
  have hrem : remoteImage { E with RemoveAll := rm } ref ociAuth reqAuthFile pb w =
      remoteImage E ref ociAuth reqAuthFile pb w := rfl
  have hens : ∀ w, ensureSIF { E with RemoveAll := rm } path w = ensureSIF E path w :=
    fun _ => rfl
  simp only [DownloadImage, hrem, hens]
  rcases remoteImage E ref ociAuth reqAuthFile pb w with ⟨res, w1⟩
  cases res with
  | error err => rfl
  | ok im =>
    dsimp only
    cases im.Manifest with
    | error err => rfl
    | ok manifest =>
      dsimp only
      split
      · rfl
      · split
        · rfl
        · cases E.MkdirTemp with
          | error err => rfl
          | ok tmpDir =>
            dsimp only
            cases E.LayoutWrite tmpDir with
            | some err => rfl
            | none =>
              dsimp only
              cases E.AppendImage tmpDir im.id with
              | some err => rfl
              | none =>
                dsimp only
                cases E.LayoutBlob tmpDir (manifest.Layers.headD Descriptor.zero).Digest with
                | error err => rfl
                | ok blob =>
                  dsimp only
                  cases E.Create path with
                  | some err => rfl
                  | none =>
                    dsimp only
                    cases E.CopyFail with
                    | some ne => rfl
                    | none =>
                      dsimp only
                      split <;> rfl

/-- Claim C2: when the reference resolves to an image and its manifest is
fetched, `RefHash` returns what the reference definition `RefHash_spec`
gives on the manifest: the recorded digest of the sole SIF layer and no
error, or the zero hash with the layer-count or the media-type error; it
reads no file to do so.  `DownloadImage` applies the same acceptance
condition: when `RefHash` returns an error, `DownloadImage` on the same
manifest returns that error and touches no file; when `RefHash` returns no
error, `DownloadImage` goes on to `os.MkdirTemp`. -/
theorem RefHash_refines_spec (E : Env) (ref : String) (ociAuth : Option DockerAuthConfig)
    (reqAuthFile : String) (w : World) (im : Image) (manifest : Manifest)
    (hIm : (remoteImage E ref ociAuth reqAuthFile false w).1 = .ok im)
    (hM : im.Manifest = .ok manifest) :
    (RefHash E ref ociAuth reqAuthFile w).1 = RefHash_spec E manifest ∧
    NoFilesystemEffect w (RefHash E ref ociAuth reqAuthFile w).2 ∧
    ∀ (path : String) (pb : Bool) (im' : Image),
      (remoteImage E ref ociAuth reqAuthFile pb w).1 = .ok im' → im'.Manifest = .ok manifest →
      (∀ err, (RefHash E ref ociAuth reqAuthFile w).1.2 = some err →
        (DownloadImage E path ref ociAuth reqAuthFile pb w).1 = some err ∧
        NoFilesystemEffect w (DownloadImage E path ref ociAuth reqAuthFile pb w).2) ∧
      ((RefHash E ref ociAuth reqAuthFile w).1.2 = none →
        ∃ evs, (DownloadImage E path ref ociAuth reqAuthFile pb w).2.trace =
          (remoteImage E ref ociAuth reqAuthFile pb w).2.trace ++
            [Event.ImageManifest im'.id, Event.MkdirTemp] ++ evs) := by
  have hspec : (RefHash E ref ociAuth reqAuthFile w).1 = RefHash_spec E manifest := by
    rcases hf : remoteImage E ref ociAuth reqAuthFile false w with ⟨res, w1⟩
    rw [hf] at hIm
    simp only at hIm
    subst hIm
    simp only [RefHash, hf, hM, RefHash_spec]
    rcases manifest with ⟨layers⟩
    match layers with
    | [] => simp
    | [layer] =>
      by_cases h1 : layer.MediaType = E.SifLayerMediaTypeV1
      · simp [h1]
      · by_cases h2 : layer.MediaType = E.SifLayerMediaTypeProto
        · simp [h2]
        · simp [h1, h2]
    | l1 :: l2 :: rest => simp
  have hnofs : NoFilesystemEffect w (RefHash E ref ociAuth reqAuthFile w).2 := by
    have hstep := manifest_step_noFilesystemEffect E ref ociAuth reqAuthFile false w im.id
    rcases hf : remoteImage E ref ociAuth reqAuthFile false w with ⟨res, w1⟩
    rw [hf] at hIm hstep
    simp only at hIm hstep
    subst hIm
    simp only [RefHash, hf, hM]
    split
    · exact hstep
    · split <;> exact hstep
  refine ⟨hspec, hnofs, ?_⟩
  intro path pb im' hIm' hM'
  rw [hspec]
  have hC1 := DownloadImage_manifest_rejected E path ref ociAuth reqAuthFile pb w
  rcases manifest with ⟨layers⟩
  match layers, hM' with
  | [], hM' =>
    refine ⟨?_, by simp [RefHash_spec]⟩
    intro err herr
    have := hC1.1 im' ⟨[]⟩ hIm' hM' (by simp)
    simp only [RefHash_spec, Option.some.injEq] at herr
    rw [← herr]
    exact this
  | l1 :: l2 :: rest, hM' =>
    refine ⟨?_, by simp [RefHash_spec]⟩
    intro err herr
    have := hC1.1 im' ⟨l1 :: l2 :: rest⟩ hIm' hM' (by simp)
    simp only [RefHash_spec, Option.some.injEq] at herr
    rw [← herr]
    exact this
  | [layer], hM' =>
    by_cases hT : layer.MediaType = E.SifLayerMediaTypeV1 ∨
        layer.MediaType = E.SifLayerMediaTypeProto
    · refine ⟨by simp [RefHash_spec, hT], fun _ => ?_⟩
      cases hTmp : E.MkdirTemp with
      | error err =>
        rcases hf : remoteImage E ref ociAuth reqAuthFile pb w with ⟨res, w1⟩
        rw [hf] at hIm'
        simp only at hIm'
        subst hIm'
        have hT' : ¬ (layer.MediaType ≠ E.SifLayerMediaTypeV1 ∧
            layer.MediaType ≠ E.SifLayerMediaTypeProto) := by
          rcases hT with h | h <;> simp [h]
        exact ⟨[], by simp [DownloadImage, hf, hM', hTmp, hT']⟩
      | ok tmpDir =>
        obtain ⟨body, hb, _⟩ := DownloadImage_staged E path ref ociAuth reqAuthFile pb w
          im' layer tmpDir hIm' hM' hT hTmp
        exact ⟨_, by rw [hb, List.append_assoc, List.append_assoc]⟩
    · refine ⟨?_, by simp [RefHash_spec, hT]⟩
      intro err herr
      have h1 : layer.MediaType ≠ E.SifLayerMediaTypeV1 := fun h => hT (Or.inl h)
      have h2 : layer.MediaType ≠ E.SifLayerMediaTypeProto := fun h => hT (Or.inr h)
      have := hC1.2 im' layer hIm' hM' h1 h2
      simp only [RefHash_spec, hT, if_false, Option.some.injEq] at herr
      rw [← herr]
      exact this

/-- Witness of claim C2: the one-layer SIF image of the sample registry. -/
theorem RefHash_refines_spec_witness :
    (RefHash sampleEnv "oras://registry.example.org/ns/image" none "" emptyWorld).1 =
      RefHash_spec sampleEnv ⟨[sampleLayer "application/vnd.sylabs.sif.layer.v1.sif"]⟩ ∧
    RefHash_spec sampleEnv ⟨[sampleLayer "application/vnd.sylabs.sif.layer.v1.sif"]⟩ =
      (⟨"sha256", "9f64a747e1b97f131fabb6b447296c9b6f0201e79fb3c5356e6c77e89b6a806a"⟩, none) :=
  ⟨(RefHash_refines_spec sampleEnv "oras://registry.example.org/ns/image" none "" emptyWorld
      (sampleImage 1 "application/vnd.sylabs.sif.layer.v1.sif")
      ⟨[sampleLayer "application/vnd.sylabs.sif.layer.v1.sif"]⟩ (by rfl) (by rfl)).1,
    by decide⟩

/-! ## The staging directory -/

/-- Claim C10: in every `DownloadImage` run that created its staging
directory `tmpDir`, whatever the body of the function does and returns, the
calls end with `os.RemoveAll(tmpDir)`, followed only by the log line when
that removal fails; the body itself removes nothing but the destination
path; after a successful removal nothing is left at `tmpDir`; and the value
returned by `DownloadImage` is the same whatever `os.RemoveAll` answers. -/
theorem staging_directory_removed_on_exit (E : Env) (path ref : String)
    (ociAuth : Option DockerAuthConfig) (reqAuthFile : String) (pb : Bool) (w : World)
    (im : Image) (layer : Descriptor) (tmpDir : String)
    (hIm : (remoteImage E ref ociAuth reqAuthFile pb w).1 = .ok im)
    (hM : im.Manifest = .ok ⟨[layer]⟩)
    (hT : layer.MediaType = E.SifLayerMediaTypeV1 ∨ layer.MediaType = E.SifLayerMediaTypeProto)
    (hTmp : E.MkdirTemp = .ok tmpDir) :
    (∃ body : List Event,
      (DownloadImage E path ref ociAuth reqAuthFile pb w).2.trace =
        (remoteImage E ref ociAuth reqAuthFile pb w).2.trace ++
          [Event.ImageManifest im.id, Event.MkdirTemp] ++ body ++ [Event.RemoveAll tmpDir] ++
          (match E.RemoveAll tmpDir with
            | some err =>
              [Event.SylogErrorf ("while removing " ++ E.fmtQ tmpDir ++ ": " ++ err.Error)]
            | none => []) ∧
      ∀ q, Event.RemoveAll q ∈ body → q = path) ∧
    (E.RemoveAll tmpDir = none →
      (DownloadImage E path ref ociAuth reqAuthFile pb w).2.fs tmpDir = none) ∧
    (∀ rm : String → Option GoError,
      (DownloadImage { E with RemoveAll := rm } path ref ociAuth reqAuthFile pb w).1 =
        (DownloadImage E path ref ociAuth reqAuthFile pb w).1) := by
  refine ⟨DownloadImage_staged E path ref ociAuth reqAuthFile pb w im layer tmpDir hIm hM hT hTmp,
    ?_, fun rm => DownloadImage_result_RemoveAll E rm path ref ociAuth reqAuthFile pb w⟩
  intro hrm
  rcases hf : remoteImage E ref ociAuth reqAuthFile pb w with ⟨res, w1⟩
  rw [hf] at hIm
  simp only at hIm
  subst hIm
  have hT' : ¬ (layer.MediaType ≠ E.SifLayerMediaTypeV1 ∧
      layer.MediaType ≠ E.SifLayerMediaTypeProto) := by
    rcases hT with h | h <;> simp [h]
  simp only [DownloadImage, hf, hM, hTmp, ne_eq, List.length_singleton, not_true_eq_false,
    if_false, List.headD_cons, hT', deferred_fs, hrm, if_true, FS.set_same]

/-- Witness of claim C10: the download of the one-layer SIF image of the
sample registry, which creates the staging directory `/tmp/oras-tmp-1`. -/
theorem staging_directory_removed_on_exit_witness :
    (DownloadImage sampleEnv "/images/image.sif" "oras://registry.example.org/ns/image"
      none "" false emptyWorld).2.fs "/tmp/oras-tmp-1" = none :=
  (staging_directory_removed_on_exit sampleEnv "/images/image.sif"
    "oras://registry.example.org/ns/image" none "" false emptyWorld
    (sampleImage 1 "application/vnd.sylabs.sif.layer.v1.sif")
    (sampleLayer "application/vnd.sylabs.sif.layer.v1.sif") "/tmp/oras-tmp-1"
    (by rfl) (by rfl) (Or.inl (by rfl)) (by rfl)).2.1 (by rfl)

/-! ## The destination after a failed download -/

/-- Claim C3, as amended: when the blob has been fully copied to the
destination path and `ensureSIF` fails with `err` on a filesystem that
holds the blob at that path, `DownloadImage` returns `err` after calling
`os.RemoveAll` on the destination path, whose result it drops; when that
removal succeeds, the destination path does not exist after the call
returns. -/
theorem DownloadImage_removes_rejected_file (E : Env) (path ref : String)
    (ociAuth : Option DockerAuthConfig) (reqAuthFile : String) (pb : Bool) (w : World)
    (im : Image) (layer : Descriptor) (tmpDir : String) (blob : List Byte) (err : GoError)
    (hIm : (remoteImage E ref ociAuth reqAuthFile pb w).1 = .ok im)
    (hM : im.Manifest = .ok ⟨[layer]⟩)
    (hT : layer.MediaType = E.SifLayerMediaTypeV1 ∨ layer.MediaType = E.SifLayerMediaTypeProto)
    (hTmp : E.MkdirTemp = .ok tmpDir)
    (hLayout : E.LayoutWrite tmpDir = none)
    (hAppend : E.AppendImage tmpDir im.id = none)
    (hBlob : E.LayoutBlob tmpDir layer.Digest = .ok blob)
    (hCreate : E.Create path = none)
    (hCopy : E.CopyFail = none)
    (hSIF : (ensureSIF E path (emptyWorld.write path (some (.file blob)))).1 = some err) :
    (DownloadImage E path ref ociAuth reqAuthFile pb w).1 = some err ∧
    (∃ evs rest, (DownloadImage E path ref ociAuth reqAuthFile pb w).2.trace =
      (remoteImage E ref ociAuth reqAuthFile pb w).2.trace ++
        [Event.ImageManifest im.id, Event.MkdirTemp, Event.LayoutWrite tmpDir,
          Event.AppendImage tmpDir im.id, Event.LayoutBlob tmpDir layer.Digest,
          Event.Create path, Event.Copy path, Event.ImageInit path] ++ evs ++
        [Event.RemoveAll path, Event.FileClose path, Event.BlobClose,
          Event.RemoveAll tmpDir] ++ rest ∧
      (evs = [] ∨ evs = [Event.ImageClose path]) ∧
      ∀ e ∈ rest, ∃ msg, e = Event.SylogErrorf msg) ∧
    (E.RemoveAll path = none →
      (DownloadImage E path ref ociAuth reqAuthFile pb w).2.fs path = none) := by
  rcases hf : remoteImage E ref ociAuth reqAuthFile pb w with ⟨res, w1⟩
  rw [hf] at hIm
  simp only at hIm
  subst hIm
  have hT' : ¬ (layer.MediaType ≠ E.SifLayerMediaTypeV1 ∧
      layer.MediaType ≠ E.SifLayerMediaTypeProto) := by
    rcases hT with h | h <;> simp [h]
  simp only [DownloadImage, hf, hM, hTmp, ne_eq, List.length_singleton, not_true_eq_false,
    if_false, List.headD_cons, hT', hLayout, hAppend, hBlob, hCreate, hCopy, deferred_fs,
    deferred_trace]
  split
  · rename_i e' w' heq
    have he' := ensureSIF_result_of heq (emptyWorld.write path (some (.file blob))) (by simp)
    rw [hSIF] at he'
    obtain ⟨evs, htr, hevs⟩ := ensureSIF_trace_of heq
    have hfs := ensureSIF_fs_of heq
    refine ⟨by simpa using he'.symm, ⟨evs,
      (match E.RemoveAll tmpDir with
        | some err =>
          [Event.SylogErrorf ("while removing " ++ E.fmtQ tmpDir ++ ": " ++ err.Error)]
        | none => []), ?_, hevs, ?_⟩, ?_⟩
    · simp only [World.emit_trace, osRemoveAll_trace, htr, World.write_trace]
      simp only [List.append_assoc, List.cons_append, List.nil_append, List.singleton_append]
    · intro e he
      cases hrm : E.RemoveAll tmpDir with
      | none => simp [hrm] at he
      | some err2 =>
        simp only [hrm, List.mem_singleton] at he
        exact ⟨_, he⟩
    · intro hrm
      simp only [World.emit_fs, osRemoveAll_fs, hrm, if_true]
      split <;> simp [FS.set]
  · rename_i w' heq
    have he' := ensureSIF_result_of heq (emptyWorld.write path (some (.file blob))) (by simp)
    rw [hSIF] at he'
    cases he'

/-- Witness of claim C3, as amended: in the sample environment a blob that
is not a SIF image is downloaded, rejected and removed. -/
theorem DownloadImage_removes_rejected_file_witness :
    (DownloadImage { sampleEnv with LayoutBlob := fun _ _ => .ok [0, 1, 2, 3] }
      "/images/image.sif" "oras://registry.example.org/ns/image" none "" false emptyWorld).1 =
      some (.new (sampleQuote "/images/image.sif" ++ " is not a SIF")) ∧
    (DownloadImage { sampleEnv with LayoutBlob := fun _ _ => .ok [0, 1, 2, 3] }
      "/images/image.sif" "oras://registry.example.org/ns/image" none "" false
      emptyWorld).2.fs "/images/image.sif" = none :=
  have h := DownloadImage_removes_rejected_file
    { sampleEnv with LayoutBlob := fun _ _ => .ok [0, 1, 2, 3] }
    "/images/image.sif" "oras://registry.example.org/ns/image" none "" false emptyWorld
    (sampleImage 1 "application/vnd.sylabs.sif.layer.v1.sif")
    (sampleLayer "application/vnd.sylabs.sif.layer.v1.sif") "/tmp/oras-tmp-1" [0, 1, 2, 3]
    (.new (sampleQuote "/images/image.sif" ++ " is not a SIF"))
    (by rfl) (by rfl) (Or.inl (by rfl)) (by rfl) (by rfl) (by rfl) (by rfl) (by rfl) (by rfl)
    (by rfl)
  ⟨h.1, h.2.2 (by rfl)⟩

/-- Counterexample to claim C3 as stated: the destination is a writable
file that the caller may not remove.  The blob is copied in full, the
format check fails, `DownloadImage` returns its error, and the destination
still exists after the call, holding the rejected bytes. -/
theorem DownloadImage_rejected_file_may_remain :
    lockedEnv.CopyFail = none ∧
    (ensureSIF lockedEnv "/images/image.sif"
      (emptyWorld.write "/images/image.sif" (some (.file [0, 1, 2, 3])))).1 =
      some (.new (sampleQuote "/images/image.sif" ++ " is not a SIF")) ∧
    (DownloadImage lockedEnv "/images/image.sif" "oras://registry.example.org/ns/image"
      none "" false (emptyWorld.write "/images/image.sif" (some (.file [7, 7])))).1 =
      some (.new (sampleQuote "/images/image.sif" ++ " is not a SIF")) ∧
    (DownloadImage lockedEnv "/images/image.sif" "oras://registry.example.org/ns/image"
      none "" false (emptyWorld.write "/images/image.sif" (some (.file [7, 7])))).2.fs
      "/images/image.sif" = some (.file [0, 1, 2, 3]) := by
  refine ⟨rfl, ?_, ?_, ?_⟩ <;> rfl

/-- Claim C4, the code at the failing input: the destination does not
exist, the copy of the four-byte blob fails after two bytes, and
`DownloadImage` returns the copy error leaving the two bytes written so far
at the destination path. -/
theorem DownloadImage_partial_file_remains :
    emptyWorld.fs "/images/image.sif" = none ∧
    (DownloadImage brokenCopyEnv "/images/image.sif" "oras://registry.example.org/ns/image"
      none "" false emptyWorld).1 = some (.new "unexpected EOF") ∧
    (DownloadImage brokenCopyEnv "/images/image.sif" "oras://registry.example.org/ns/image"
      none "" false emptyWorld).2.fs "/images/image.sif" = some (.file [83, 73]) := by
  refine ⟨rfl, ?_, ?_⟩ <;> rfl

/-! ## UploadImage: the source check and the reference -/

/-- The calls of `UploadImage` are those of `ensureSIF` followed by the
calls made after the check. -/
theorem UploadImage_trace (E : Env) (path ref : String) (ociAuth : Option DockerAuthConfig)
    (reqAuthFile : String) (w : World) :
    ∃ evs, (UploadImage E path ref ociAuth reqAuthFile w).2.trace =
      (ensureSIF E path w).2.trace ++ evs ∧
      ((ensureSIF E path w).1 ≠ none → evs = []) := by
  simp only [UploadImage]
  rcases ensureSIF E path w with ⟨e, w1⟩
  cases e with
  | some err => exact ⟨[], by simp, by simp⟩
  | none =>
    dsimp only
    cases E.ParseReference (TrimPrefix (TrimPrefix ref "oras://") "//") DefaultTag
      DefaultRegistry with
    | error err =>
      exact ⟨[Event.ParseReference (TrimPrefix (TrimPrefix ref "oras://") "//") DefaultTag
        DefaultRegistry], by simp, by simp⟩
    | ok ir =>
      dsimp only
      cases E.NewImageFromSIF path E.SifLayerMediaTypeV1 with
      | error err =>
        exact ⟨[Event.ParseReference (TrimPrefix (TrimPrefix ref "oras://") "//") DefaultTag
          DefaultRegistry, Event.NewImageFromSIF path E.SifLayerMediaTypeV1], by simp, by simp⟩
      | ok im =>
        dsimp only
        split
        · exact ⟨[Event.ParseReference (TrimPrefix (TrimPrefix ref "oras://") "//") DefaultTag
            DefaultRegistry, Event.NewImageFromSIF path E.SifLayerMediaTypeV1,
            Event.IsTerminal 2, Event.GoProgress,
            Event.RemoteWrite ir im.id E.UserAgent true], by simp, by simp⟩
        · exact ⟨[Event.ParseReference (TrimPrefix (TrimPrefix ref "oras://") "//") DefaultTag
            DefaultRegistry, Event.NewImageFromSIF path E.SifLayerMediaTypeV1,
            Event.IsTerminal 2, Event.RemoteWrite ir im.id E.UserAgent false],
            by simp, by simp⟩

/-- Claim C5: `ensureSIF` fails exactly when the image detector cannot open
the file or detects a type that is neither SIF nor OCISIF; when it fails on
the source path, `UploadImage` returns that error having made no call
beyond those of `ensureSIF` (the detector and the close of the image file):
the reference is not parsed, no image is built and nothing is written to
the registry; and whenever `remote.Write` is called, `ensureSIF` had
returned nil. -/
theorem UploadImage_refuses_non_SIF (E : Env) (path ref : String)
    (ociAuth : Option DockerAuthConfig) (reqAuthFile : String) (w : World) :
    ((ensureSIF E path w).1 ≠ none ↔
      (∃ e, E.ImageInit path (w.fs path) = .error e) ∨
      (∃ ty, E.ImageInit path (w.fs path) = .ok ty ∧ ty ≠ .SIF ∧ ty ≠ .OCISIF)) ∧
    (∀ err, (ensureSIF E path w).1 = some err →
      UploadImage E path ref ociAuth reqAuthFile w = (some err, (ensureSIF E path w).2) ∧
      ∃ evs, (UploadImage E path ref ociAuth reqAuthFile w).2.trace =
        w.trace ++ Event.ImageInit path :: evs ∧ (evs = [] ∨ evs = [Event.ImageClose path])) ∧
    (∃ evs, (UploadImage E path ref ociAuth reqAuthFile w).2.trace = w.trace ++ evs ∧
      ((∃ ir im ua b, Event.RemoteWrite ir im ua b ∈ evs) → (ensureSIF E path w).1 = none)) := by
  refine ⟨?_, ?_, ?_⟩
  · simp only [ensureSIF, World.emit_fs]
    cases E.ImageInit path (w.fs path) with
    | error e => simp
    | ok ty =>
      dsimp only
      split <;> simp_all
  · intro err herr
    have hU : UploadImage E path ref ociAuth reqAuthFile w = (some err, (ensureSIF E path w).2) := by
      simp only [UploadImage]
      rcases hens : ensureSIF E path w with ⟨e, w1⟩
      rw [hens] at herr
      simp only at herr
      subst herr
      rfl
    refine ⟨hU, ?_⟩
    rw [hU]
    exact ensureSIF_trace E path w
  · obtain ⟨evs1, h1, hev1⟩ := ensureSIF_trace E path w
    obtain ⟨evs2, h2, hev2⟩ := UploadImage_trace E path ref ociAuth reqAuthFile w
    refine ⟨Event.ImageInit path :: evs1 ++ evs2, by rw [h2, h1]; simp, ?_⟩
    rintro ⟨ir, im, ua, b, hmem⟩
    by_contra hne
    rw [hev2 hne] at hmem
    rcases hev1 with h | h <;> simp [h] at hmem

/-- Witness of claim C5: the upload of a file that is not a SIF image is
refused with the error of `ensureSIF`. -/
theorem UploadImage_refuses_non_SIF_witness :
    UploadImage sampleEnv "/images/raw.img" "oras://registry.example.org/ns/image" none ""
      sampleWorld =
    (some (.new (sampleQuote "/images/raw.img" ++ " is not a SIF")),
      (ensureSIF sampleEnv "/images/raw.img" sampleWorld).2) :=
  ((UploadImage_refuses_non_SIF sampleEnv "/images/raw.img"
    "oras://registry.example.org/ns/image" none "" sampleWorld).2.1
    (.new (sampleQuote "/images/raw.img" ++ " is not a SIF")) (by rfl)).1

/-- What the three operations do when the normalized reference does not
parse: `DownloadImage` and `RefHash`, through `remoteImage`, fail with the
error `invalid reference <quoted normalized ref>: <parser error>` that wraps
the error of the parser, whereas `UploadImage` on a valid SIF source hands
back the error of the parser without that wrapping; none of the three sends
a request to the registry. -/
theorem invalid_reference_errors (E : Env) (path ref : String)
    (ociAuth : Option DockerAuthConfig) (reqAuthFile : String) (pb : Bool) (w : World)
    (perr : GoError)
    (hParse : E.ParseReference (TrimPrefix (TrimPrefix ref "oras://") "//") DefaultTag
      DefaultRegistry = .error perr) :
    (DownloadImage E path ref ociAuth reqAuthFile pb w).1 =
      some (.wrap ("invalid reference " ++ E.fmtQ (TrimPrefix (TrimPrefix ref "oras://") "//") ++
        ": " ++ perr.Error) perr) ∧
    NoRegistryRequest w (DownloadImage E path ref ociAuth reqAuthFile pb w).2 ∧
    (RefHash E ref ociAuth reqAuthFile w).1 =
      (Hash.zero, some (.wrap ("invalid reference " ++
        E.fmtQ (TrimPrefix (TrimPrefix ref "oras://") "//") ++ ": " ++ perr.Error) perr)) ∧
    NoRegistryRequest w (RefHash E ref ociAuth reqAuthFile w).2 ∧
    ((ensureSIF E path w).1 = none →
      (UploadImage E path ref ociAuth reqAuthFile w).1 = some perr ∧
      NoRegistryRequest w (UploadImage E path ref ociAuth reqAuthFile w).2) := by
  have hrem : ∀ b, remoteImage E ref ociAuth reqAuthFile b w =
      (.error (.wrap ("invalid reference " ++
        E.fmtQ (TrimPrefix (TrimPrefix ref "oras://") "//") ++ ": " ++ perr.Error) perr),
      w.emit (.ParseReference (TrimPrefix (TrimPrefix ref "oras://") "//") DefaultTag
        DefaultRegistry)) := by
    intro b
    simp only [remoteImage, hParse]
  have hreg : NoRegistryRequest w (w.emit (.ParseReference
      (TrimPrefix (TrimPrefix ref "oras://") "//") DefaultTag DefaultRegistry)) :=
    ⟨[_], rfl, by simp [Event.isRegistry]⟩
  refine ⟨?_, ?_, ?_, ?_, ?_⟩
  · simp only [DownloadImage, hrem]
  · simp only [DownloadImage, hrem]
    exact hreg
  · simp only [RefHash, hrem]
  · simp only [RefHash, hrem]
    exact hreg
  · intro hs
    obtain ⟨evs, htr, hevs⟩ := ensureSIF_trace E path w
    rcases hens : ensureSIF E path w with ⟨e, w1⟩
    rw [hens] at hs htr
    simp only at hs htr
    subst hs
    simp only [UploadImage, hens, hParse]
    refine ⟨trivial, Event.ImageInit path :: evs ++ [Event.ParseReference
      (TrimPrefix (TrimPrefix ref "oras://") "//") DefaultTag DefaultRegistry], ?_, ?_⟩
    · simp [htr]
    · rcases hevs with h | h <;> subst h <;> simp [Event.isRegistry]

/-- The wrapped error of `DownloadImage` on the reference `oras://bad ref`,
which the sample parser rejects. -/
theorem invalid_reference_errors_witness :
    (DownloadImage sampleEnv "/images/image.sif" "oras://bad ref" none "" false sampleWorld).1 =
      some (.wrap ("invalid reference " ++
        sampleEnv.fmtQ (TrimPrefix (TrimPrefix "oras://bad ref" "oras://") "//") ++ ": " ++
        (GoError.new "could not parse reference: bad ref").Error)
        (.new "could not parse reference: bad ref")) :=
  (invalid_reference_errors sampleEnv "/images/image.sif" "oras://bad ref" none "" false
    sampleWorld (.new "could not parse reference: bad ref") (by rfl)).1

/-- Claim C8, the code at the failing input: `UploadImage` on a valid SIF
source and the reference `oras://bad ref`.  The parser rejects `bad ref`,
and `UploadImage` returns the error of the parser as it is: its message
does not begin with `invalid reference`, it is not the wrapping error, and
it wraps nothing, whereas `RefHash`, through `remoteImage`, returns the
wrapping error `invalid reference <quoted ref>: <parser error>` on the same
reference. -/
theorem UploadImage_invalid_reference_not_wrapped :
    (ensureSIF sampleEnv "/images/image.sif" sampleWorld).1 = none ∧
    (UploadImage sampleEnv "/images/image.sif" "oras://bad ref" none "" sampleWorld).1 =
      some (.new "could not parse reference: bad ref") ∧
    HasPrefix (GoError.new "could not parse reference: bad ref").Error "invalid reference"
      = false ∧
    GoError.new "could not parse reference: bad ref" ≠
      .wrap ("invalid reference " ++ sampleQuote "bad ref" ++ ": " ++
        "could not parse reference: bad ref") (.new "could not parse reference: bad ref") ∧
    (GoError.new "could not parse reference: bad ref").Unwrap = none ∧
    (RefHash sampleEnv "oras://bad ref" none "" sampleWorld).1.2 =
      some (.wrap ("invalid reference " ++ sampleQuote "bad ref" ++ ": " ++
        "could not parse reference: bad ref") (.new "could not parse reference: bad ref")) := by
  refine ⟨rfl, rfl, by decide, by decide, rfl, rfl⟩

/-! ## Digests of local files -/

theorem getD_mem_of_default_mem {α : Type} (l : List α) (n : Nat) (d : α) (hd : d ∈ l) :
    l.getD n d ∈ l := by
  by_cases h : n < l.length
  · rw [List.getD_eq_getElem _ _ h]
    exact List.getElem_mem _
  · rw [List.getD_eq_default _ _ (by omega)]
    exact hd

theorem EncodeToString_length (src : List Byte) :
    (EncodeToString src).length = 2 * src.length := by
  simp only [EncodeToString, String.length]
  induction src with
  | nil => rfl
  | cons v vs ih =>
    simp only [List.flatMap_cons, List.length_append, List.length_cons, List.length_nil, ih]
    omega

theorem EncodeToString_lowercase (src : List Byte) :
    ∀ c ∈ (EncodeToString src).data, c ∈ hextable := by
  intro c hc
  simp only [EncodeToString, List.mem_flatMap, List.mem_cons, List.mem_singleton,
    List.not_mem_nil, or_false] at hc
  obtain ⟨v, _, rfl | rfl⟩ := hc
  · exact getD_mem_of_default_mem _ _ _ (by decide)
  · exact getD_mem_of_default_mem _ _ _ (by decide)

theorem hexValue_hextable (n : Nat) (h : n < 16) : hexValue (hextable.getD n '0') = n := by
  interval_cases n <;> decide

theorem decodePairs_EncodeToString (src : List Byte) :
    decodePairs (EncodeToString src).data = src.map (·.val) := by
  simp only [EncodeToString]
  induction src with
  | nil => rfl
  | cons v vs ih =>
    simp only [List.flatMap_cons, List.cons_append, List.nil_append, decodePairs, ih,
      List.map_cons]
    rw [hexValue_hextable _ (by omega), hexValue_hextable _ (by omega)]
    congr 1
    omega

theorem splitColon_no_colon (cur l : List Char) (h : ':' ∉ l) :
    splitColon cur l = [cur ++ l] := by
  induction l generalizing cur with
  | nil => simp [splitColon]
  | cons c cs ih =>
    simp only [List.mem_cons, not_or] at h
    have hc : c ≠ ':' := fun e => h.1 e.symm
    simp [splitColon, hc, ih _ h.2]

theorem sampleNewHash_accepts (q : String → String) (hex : String) (hlen : hex.length = 64)
    (hall : ∀ c ∈ hex.data, c ∈ "0123456789abcdef".data) :
    sampleNewHash q ("sha256:" ++ hex) = .ok ⟨"sha256", hex⟩ := by
  have hno : ':' ∉ hex.data := fun h => by
    have := hall _ h
    revert this
    decide
  have hsplit : splitColon [] ("sha256:" ++ hex).data = ["sha256".data, hex.data] := by
    rw [String.data_append]
    simp [splitColon, splitColon_no_colon _ _ hno]
  have hdrop : hex.data.dropWhile (· ∈ hextable) = [] := by
    rw [List.dropWhile_eq_nil_iff]
    intro c hc
    exact decide_eq_true (hall c hc)
  have hlen' : hex.data.length = 64 := hlen
  have halg : String.mk "sha256".data = "sha256" := rfl
  simp only [sampleNewHash, hsplit, hdrop, halg, hlen']
  simp

/-- `ImageHash` on a file that is opened and read to its end, given that
`NewHash` accepts the digest. -/
theorem ImageHash_of_read (E : Env) (path : String) (w : World) (b : List Byte)
    (hOpen : E.OpenFail path = none) (hFile : w.fs path = some (.file b))
    (hRead : E.ReadFail path = none)
    (hNew : ∀ hex : String, hex.length = 64 → (∀ c ∈ hex.data, c ∈ hextable) →
      E.NewHash ("sha256:" ++ hex) = .ok ⟨"sha256", hex⟩) :
    (ImageHash E path w).1 = (⟨"sha256", EncodeToString (E.Sha256 b).val⟩, none) := by
  have hlen : (EncodeToString (E.Sha256 b).val).length = 64 := by
    rw [EncodeToString_length, (E.Sha256 b).property]
  have h := hNew _ hlen (EncodeToString_lowercase _)
  simp only [ImageHash, osOpen, hOpen, World.emit_fs, hFile, hRead, sha256sum, h]

/-- Claim C7: for a file with contents `b` that is opened and read without
error, `sha256sum` returns `sha256:` followed by the hexadecimal encoding of
the SHA-256 checksum of `b`, of 64 lowercase hexadecimal digits that spell
the bytes of the checksum, together with the length of `b`; given that
`NewHash` accepts every such digest, `ImageHash` returns the hash with
algorithm `sha256` and that hexadecimal value and no error, the same for
every file with the same contents; and when the file cannot be opened or
read `ImageHash` returns the zero hash and the error. -/
theorem ImageHash_sha256 (E : Env) (path : String) (w : World) (b : List Byte)
    (hOpen : E.OpenFail path = none) (hFile : w.fs path = some (.file b))
    (hRead : E.ReadFail path = none)
    (hNew : ∀ hex : String, hex.length = 64 → (∀ c ∈ hex.data, c ∈ hextable) →
      E.NewHash ("sha256:" ++ hex) = .ok ⟨"sha256", hex⟩) :
    sha256sum E ⟨b, none⟩ =
      ("sha256:" ++ EncodeToString (E.Sha256 b).val, (b.length : Int), none) ∧
    (EncodeToString (E.Sha256 b).val).length = 64 ∧
    (∀ c ∈ (EncodeToString (E.Sha256 b).val).data, c ∈ hextable) ∧
    decodePairs (EncodeToString (E.Sha256 b).val).data = (E.Sha256 b).val.map (·.val) ∧
    (ImageHash E path w).1 = (⟨"sha256", EncodeToString (E.Sha256 b).val⟩, none) ∧
    (∀ path' w', E.OpenFail path' = none → w'.fs path' = some (.file b) →
      E.ReadFail path' = none → (ImageHash E path' w').1 = (ImageHash E path w).1) ∧
    (∀ p w' err, E.OpenFail p = some err → (ImageHash E p w').1 = (Hash.zero, some err)) ∧
    (∀ p w' b' n err, E.OpenFail p = none → w'.fs p = some (.file b') →
      E.ReadFail p = some (n, err) → (ImageHash E p w').1 = (Hash.zero, some err)) ∧
    (∀ p w', E.OpenFail p = none → w'.fs p = none →
      ∃ err, (ImageHash E p w').1 = (Hash.zero, some err)) := by
  have hI := ImageHash_of_read E path w b hOpen hFile hRead hNew
  refine ⟨rfl, ?_, EncodeToString_lowercase _, decodePairs_EncodeToString _, hI, ?_, ?_, ?_, ?_⟩
  · rw [EncodeToString_length, (E.Sha256 b).property]
  · intro path' w' hO hF hR
    rw [hI, ImageHash_of_read E path' w' b hO hF hR hNew]
  · intro p w' err hO
    simp only [ImageHash, osOpen, hO]
  · intro p w' b' n err hO hF hR
    simp only [ImageHash, osOpen, hO, World.emit_fs, hF, hR, sha256sum]
  · intro p w' hO hF
    exact ⟨.new ("open " ++ p ++ ": no such file or directory"),
      by simp only [ImageHash, osOpen, hO, World.emit_fs, hF]⟩

/-- Witness of claim C7: the digest of the sample SIF image, with the model
of `NewHash` taken from go-containerregistry. -/
theorem ImageHash_sha256_witness :
    (ImageHash sampleEnv "/images/image.sif" sampleWorld).1 =
      (⟨"sha256", EncodeToString (sampleEnv.Sha256 [83, 73, 70, 0]).val⟩, none) :=
  (ImageHash_sha256 sampleEnv "/images/image.sif" sampleWorld [83, 73, 70, 0]
    (by rfl) (by rfl) (by rfl)
    (fun hex hl ha => sampleNewHash_accepts sampleQuote hex hl ha)).2.2.2.2.1
/-! ## The upload progress consumer -/

theorem wrapInt64_of_range (x : Int) (h1 : -2 ^ 63 ≤ x) (h2 : x < 2 ^ 63) : wrapInt64 x = x := by
  unfold wrapInt64
  norm_num at h1 h2 ⊢
  omega

theorem wrapInt64_modEq (x : Int) : wrapInt64 x ≡ x [ZMOD 2 ^ 64] := by
  unfold wrapInt64
  have h : (x + 2 ^ 63) % 2 ^ 64 ≡ x + 2 ^ 63 [ZMOD 2 ^ 64] := Int.mod_modEq _ _
  have h2 := h.sub_right (2 ^ 63)
  simpa using h2

/-- One step of the consumer on an update without error that does not
reach its total. -/
theorem progressConsumer_step (total soFar : Int) (u : Update) (us : List Update)
    (he : u.Error = none) (hlt : u.Complete < u.Total) :
    progressConsumer total soFar (u :: us) =
      (initCall u.Total total ++
          [BarEvent.IncrBy (wrapInt64 (wrapInt64 (u.Complete - soFar)))] ++
          (progressConsumer u.Total u.Complete us).1,
        (progressConsumer u.Total u.Complete us).2.1,
        (progressConsumer u.Total u.Complete us).2.2) := by
  have ht : (if u.Total ≠ total then u.Total else total) = u.Total := by
    split
    · rfl
    · rename_i h
      exact (not_not.1 h).symm
  have hge : ¬ (u.Complete ≥ u.Total) := not_le.2 hlt
  simp only [progressConsumer, he, ne_eq, not_true_eq_false, if_false, ht, hge, initCall]

/-- The last step of the consumer: an update without error that reaches its
total. -/
theorem progressConsumer_last (total soFar : Int) (u : Update) (us : List Update)
    (he : u.Error = none) (hge : u.Complete ≥ u.Total) :
    progressConsumer total soFar (u :: us) =
      (initCall u.Total total ++
          [BarEvent.IncrBy (wrapInt64 (wrapInt64 (u.Complete - soFar))), BarEvent.Wait],
        true, us) := by
  have ht : (if u.Total ≠ total then u.Total else total) = u.Total := by
    split
    · rfl
    · rename_i h
      exact (not_not.1 h).symm
  simp only [progressConsumer, he, ne_eq, not_true_eq_false, if_false, ht, hge, if_true,
    initCall]

/-- The step of the consumer on an update that carries an error. -/
theorem progressConsumer_error (total soFar : Int) (u : Update) (us : List Update)
    (he : u.Error ≠ none) :
    progressConsumer total soFar (u :: us) = ([BarEvent.Abort false], true, us) := by
  simp only [progressConsumer, he, ne_eq, not_false_eq_true, if_true]

theorem initTotals_append (a b : List BarEvent) :
    initTotals (a ++ b) = initTotals a ++ initTotals b := by
  simp [initTotals, List.filterMap_append]

theorem increments_append (a b : List BarEvent) :
    increments (a ++ b) = increments a ++ increments b := by
  simp [increments, List.filterMap_append]

theorem initTotals_initCall (t total : Int) :
    initTotals (initCall t total) = if t ≠ total then [t] else [] := by
  unfold initCall
  split <;> rfl

theorem increments_initCall (t total : Int) : increments (initCall t total) = [] := by
  unfold initCall
  split <;> rfl

theorem count_initCall (t total : Int) (e : BarEvent) (h : ∀ x, e ≠ BarEvent.Init x) :
    (initCall t total).count e = 0 := by
  unfold initCall
  split
  · simp [List.count_cons, (h t).symm]
  · rfl

theorem mem_initCall (t total : Int) (e : BarEvent) (h : ∀ x, e ≠ BarEvent.Init x) :
    e ∉ initCall t total := by
  unfold initCall
  split
  · simp [h t]
  · simp

/-- The run of the consumer up to and including the first update that
reaches its total. -/
theorem progressConsumer_completes (pre : List Update) (last : Update) (rest : List Update)
    (hpre : ∀ u ∈ pre, u.Error = none ∧ u.Complete < u.Total)
    (he : last.Error = none) (hlast : last.Complete = last.Total) (total soFar : Int) :
    (progressConsumer total soFar (pre ++ last :: rest)).2.1 = true ∧
    (progressConsumer total soFar (pre ++ last :: rest)).2.2 = rest ∧
    (progressConsumer total soFar (pre ++ last :: rest)).1.count .Wait = 1 ∧
    (progressConsumer total soFar (pre ++ last :: rest)).1.getLast? = some .Wait ∧
    (∀ d, BarEvent.Abort d ∉ (progressConsumer total soFar (pre ++ last :: rest)).1) ∧
    initTotals (progressConsumer total soFar (pre ++ last :: rest)).1 =
      expectedInits total (pre ++ [last]) ∧
    (increments (progressConsumer total soFar (pre ++ last :: rest)).1).sum ≡
      last.Total - soFar [ZMOD 2 ^ 64] ∧
    (isByteCount soFar → (∀ u ∈ pre ++ [last], isByteCount u.Complete) →
      (increments (progressConsumer total soFar (pre ++ last :: rest)).1).sum =
        last.Total - soFar) := by
  induction pre generalizing total soFar with
  | nil =>
    simp only [List.nil_append]
    rw [progressConsumer_last total soFar last rest he (le_of_eq hlast.symm)]
    refine ⟨rfl, rfl, ?_, ?_, ?_, ?_, ?_, ?_⟩
    · rw [List.count_append, count_initCall _ _ _ (fun x => by simp)]
      simp [List.count_cons]
    · simp [List.getLast?_append]
    · intro d
      simp only [List.mem_append, not_or]
      exact ⟨mem_initCall _ _ _ (fun x => by simp), by simp⟩
    · rw [initTotals_append, initTotals_initCall]
      simp [expectedInits, initTotals]
    · rw [increments_append, increments_initCall]
      simp only [increments, List.filterMap_cons, List.filterMap_nil, List.nil_append,
        List.sum_cons, List.sum_nil, add_zero]
      rw [← hlast]
      exact ((wrapInt64_modEq _).trans (wrapInt64_modEq _))
    · intro hs hb
      have hc := hb last (by simp)
      unfold isByteCount at hs hc
      have hr : wrapInt64 (last.Complete - soFar) = last.Complete - soFar :=
        wrapInt64_of_range _ (by omega) (by omega)
      rw [increments_append, increments_initCall]
      rw [hlast] at hr
      simp [increments, hr, hlast]
  | cons u us ih =>
    have hu := hpre u (by simp)
    have hus : ∀ v ∈ us, v.Error = none ∧ v.Complete < v.Total :=
      fun v hv => hpre v (by simp [hv])
    obtain ⟨i1, i2, i3, i4, i5, i6, i8, i7⟩ := ih hus u.Total u.Complete
    simp only [List.cons_append]
    rw [progressConsumer_step total soFar u _ hu.1 hu.2]
    refine ⟨i1, i2, ?_, ?_, ?_, ?_, ?_, ?_⟩
    · rw [List.count_append, List.count_append,
        count_initCall _ _ BarEvent.Wait (fun x => by simp), i3]
      simp [List.count_cons]
    · rw [List.getLast?_append, i4]
      rfl
    · intro d
      simp only [List.mem_append, not_or]
      exact ⟨⟨mem_initCall _ _ _ (fun x => by simp), by simp⟩, i5 d⟩
    · rw [initTotals_append, initTotals_append, initTotals_initCall, i6]
      simp [expectedInits, initTotals]
    · rw [increments_append, increments_append, increments_initCall, List.sum_append]
      simp only [increments, List.filterMap_cons, List.filterMap_nil, List.nil_append,
        List.sum_cons, List.sum_nil, add_zero]
      have h1 : wrapInt64 (wrapInt64 (u.Complete - soFar)) ≡ u.Complete - soFar
          [ZMOD 2 ^ 64] := (wrapInt64_modEq _).trans (wrapInt64_modEq _)
      have h2 := h1.add i8
      have e : u.Complete - soFar + (last.Total - u.Complete) = last.Total - soFar := by ring
      rw [e] at h2
      exact h2
    · intro hs hb
      have hc := hb u (by simp)
      have hb' : ∀ v ∈ us ++ [last], isByteCount v.Complete := fun v hv => hb v (by
        simp only [List.cons_append, List.mem_cons]
        exact Or.inr hv)
      have i7' := i7 hc hb'
      unfold isByteCount at hs hc
      have hr : wrapInt64 (u.Complete - soFar) = u.Complete - soFar :=
        wrapInt64_of_range _ (by omega) (by omega)
      rw [increments_append, increments_append, increments_initCall, List.sum_append, i7']
      simp [increments, hr]

/-- The run of the consumer up to and including the first update that
carries an error. -/
theorem progressConsumer_aborts (pre : List Update) (bad : Update) (rest : List Update)
    (hpre : ∀ u ∈ pre, u.Error = none ∧ u.Complete < u.Total)
    (he : bad.Error ≠ none) (total soFar : Int) :
    (progressConsumer total soFar (pre ++ bad :: rest)).2.1 = true ∧
    (progressConsumer total soFar (pre ++ bad :: rest)).2.2 = rest ∧
    (progressConsumer total soFar (pre ++ bad :: rest)).1.getLast? = some (.Abort false) ∧
    (progressConsumer total soFar (pre ++ bad :: rest)).1.count (.Abort false) = 1 ∧
    BarEvent.Wait ∉ (progressConsumer total soFar (pre ++ bad :: rest)).1 := by
  induction pre generalizing total soFar with
  | nil =>
    simp only [List.nil_append]
    rw [progressConsumer_error total soFar bad rest he]
    simp
  | cons u us ih =>
    have hu := hpre u (by simp)
    have hus : ∀ v ∈ us, v.Error = none ∧ v.Complete < v.Total :=
      fun v hv => hpre v (by simp [hv])
    obtain ⟨i1, i2, i3, i4, i5⟩ := ih hus u.Total u.Complete
    simp only [List.cons_append]
    rw [progressConsumer_step total soFar u _ hu.1 hu.2]
    refine ⟨i1, i2, ?_, ?_, ?_⟩
    · rw [List.getLast?_append, i3]
      rfl
    · rw [List.count_append, List.count_append,
        count_initCall _ _ (BarEvent.Abort false) (fun x => by simp), i4]
      simp [List.count_cons]
    · simp only [List.mem_append, not_or]
      exact ⟨⟨mem_initCall _ _ _ (fun x => by simp), by simp⟩, i5⟩

/-- Claim C9: the consumer starts with tracked total 0 and `soFar` 0, and
the updates of `pre` carry no error and stay below their totals.  (1) When
the next update `u` carries no error and has `Complete = Total`, the
consumer returns on it, leaving the later updates unreceived: `Wait` is
called exactly once, as the last call, `Abort` is never called, `Init` is
called exactly at the updates whose `Total` differs from the tracked total,
and the increments passed to `IncrBy` add up to the `Total` of `u`, modulo
`2 ^ 64` in general and exactly when the `Complete` fields are byte counts.
(2) When `u` carries an error, the consumer calls `Abort` on it as its last
call and returns, leaving the later updates unreceived, and `Wait` is never
called. -/
theorem progress_consumer (pre : List Update) (u : Update) (rest : List Update)
    (hpre : ∀ v ∈ pre, v.Error = none ∧ v.Complete < v.Total) :
    (u.Error = none → u.Complete = u.Total →
      (progressConsumer 0 0 (pre ++ u :: rest)).2.1 = true ∧
      (progressConsumer 0 0 (pre ++ u :: rest)).2.2 = rest ∧
      (progressConsumer 0 0 (pre ++ u :: rest)).1.count .Wait = 1 ∧
      (progressConsumer 0 0 (pre ++ u :: rest)).1.getLast? = some .Wait ∧
      (∀ d, BarEvent.Abort d ∉ (progressConsumer 0 0 (pre ++ u :: rest)).1) ∧
      initTotals (progressConsumer 0 0 (pre ++ u :: rest)).1 = expectedInits 0 (pre ++ [u]) ∧
      (increments (progressConsumer 0 0 (pre ++ u :: rest)).1).sum ≡ u.Total [ZMOD 2 ^ 64] ∧
      ((∀ v ∈ pre ++ [u], isByteCount v.Complete) →
        (increments (progressConsumer 0 0 (pre ++ u :: rest)).1).sum = u.Total)) ∧
    (u.Error ≠ none →
      (progressConsumer 0 0 (pre ++ u :: rest)).2.1 = true ∧
      (progressConsumer 0 0 (pre ++ u :: rest)).2.2 = rest ∧
      (progressConsumer 0 0 (pre ++ u :: rest)).1.getLast? = some (.Abort false) ∧
      (progressConsumer 0 0 (pre ++ u :: rest)).1.count (.Abort false) = 1 ∧
      BarEvent.Wait ∉ (progressConsumer 0 0 (pre ++ u :: rest)).1) := by
  refine ⟨fun he hu => ?_, fun he => progressConsumer_aborts pre u rest hpre he 0 0⟩
  obtain ⟨h1, h2, h3, h4, h5, h6, h7, h8⟩ := progressConsumer_completes pre u rest hpre he hu 0 0
  refine ⟨h1, h2, h3, h4, h5, h6, by simpa using h7, fun hb => ?_⟩
  have h0 : isByteCount 0 := by
    unfold isByteCount
    norm_num
  simpa using h8 h0 hb

/-- Witness of claim C9: three updates of a ten-byte upload that reach the
total, and an upload whose second update carries an error. -/
theorem progress_consumer_witness :
    (progressConsumer 0 0 ([⟨10, 3, none⟩, ⟨10, 7, none⟩] ++ ⟨10, 10, none⟩ :: [])).1.count
      .Wait = 1 ∧
    (increments
      (progressConsumer 0 0 ([⟨10, 3, none⟩, ⟨10, 7, none⟩] ++ ⟨10, 10, none⟩ :: [])).1).sum
      = 10 ∧
    BarEvent.Wait ∉ (progressConsumer 0 0
      ([⟨10, 3, none⟩] ++ ⟨10, 5, some (.new "unexpected EOF")⟩ :: [⟨10, 10, none⟩])).1 ∧
    (progressConsumer 0 0 [⟨10, 3, none⟩, ⟨10, 7, none⟩, ⟨10, 10, none⟩]).1 =
      [.Init 10, .IncrBy 3, .IncrBy 4, .IncrBy 3, .Wait] :=
  ⟨((progress_consumer [⟨10, 3, none⟩, ⟨10, 7, none⟩] ⟨10, 10, none⟩ [] (by decide)).1
      (by rfl) (by rfl)).2.2.1,
    ((progress_consumer [⟨10, 3, none⟩, ⟨10, 7, none⟩] ⟨10, 10, none⟩ [] (by decide)).1
      (by rfl) (by rfl)).2.2.2.2.2.2.2 (by decide),
    ((progress_consumer [⟨10, 3, none⟩] ⟨10, 5, some (.new "unexpected EOF")⟩
      [⟨10, 10, none⟩] (by decide)).2 (by decide)).2.2.2.2,
    by decide⟩
end Oras
